import Mathlib

/-!
Verification of the batch-orchestration core of the SpokablePDF web app:
the text chunker (`js/utils.js`), the completion client with its
retry/failover policy (`js/gemini-client.js`), the sequential text
processor and result assembly (`js/text-processor.js`), the batch
processor worker pool (`js/batch-processor.js`), and the rate limiter.

JavaScript is embedded shallowly: numbers that stay integral are `Int`
or `Nat`, JS `Map`s are association lists with JS `Map.set` semantics,
`async` control flow becomes explicit state passing, and the
cooperative event loop of the worker pool becomes a small-step
transition relation whose atomic steps are the code segments between
`await` points.
-/

namespace Spokable

/-! ## Chunker (`js/utils.js`, `chunkText`)

`chunkText(text, batchSize, overlapSize)` walks a window over the text:
`end = min(start + batchSize*4, text.length)`, emits
`text.substring(start, end)`, then sets `start = end - overlapSize*4`,
with the guard `if (start >= end) start = end`.  The loop runs while
`start < text.length`.  Since the JS loop need not terminate, we embed
the loop body as a single step and the whole loop as a fuel-indexed
iteration returning `none` when the fuel runs out before the loop
condition fails. -/

/-- JS `String.prototype.substring(start, end)`: negative indices clamp
to `0`, indices above the length clamp to the length, and the two
indices are swapped when `start > end`. -/
def jsSubstring (s : String) (a b : Int) : String :=
  let len : Int := s.length
  let a' : Nat := (max 0 (min a len)).toNat
  let b' : Nat := (max 0 (min b len)).toNat
  let lo := min a' b'
  let hi := max a' b'
  ((s.toList.drop lo).take (hi - lo)).asString

/-- One chunk as produced by `chunkText`: the substring together with
its `start` and `end` offsets (`tokens` is `⌈chunk.length/4⌉`, derived,
and omitted). -/
structure Chunk where
  text : String
  start : Int
  stop : Int
deriving Repr, DecidableEq

/-- One iteration of the `while` loop of `chunkText`, at loop variable
`start`: returns the emitted `(start, end)` window and the next value
of `start` (after the `if (start >= end) start = end` guard). -/
def chunkStep (len batchChars overlapChars start : Int) :
    (Int × Int) × Int :=
  let e := min (start + batchChars) len
  let s' := e - overlapChars
  ((start, e), if s' ≥ e then e else s')

/-- The `while (start < text.length)` loop of `chunkText`, with fuel:
`none` means the fuel was exhausted while the loop condition still
held (the JS loop would still be running). -/
def chunkTextGo (text : String) (batchChars overlapChars : Int) :
    Nat → Int → Option (List Chunk)
  | 0, start => if start < (text.length : Int) then none else some []
  | fuel + 1, start =>
    if start < (text.length : Int) then
      let step := chunkStep (text.length : Int) batchChars overlapChars start
      let e := step.1.2
      match chunkTextGo text batchChars overlapChars fuel step.2 with
      | none => none
      | some rest => some (⟨jsSubstring text start e, start, e⟩ :: rest)
    else
      some []

/-- `chunkText(text, batchSize, overlapSize)` with the token-to-char
conversion `batchChars = batchSize*4`, `overlapChars = overlapSize*4`,
starting at `start = 0`, run with the given fuel. -/
def chunkText (text : String) (batchSize overlapSize : Int) (fuel : Nat) :
    Option (List Chunk) :=
  chunkTextGo text (batchSize * 4) (overlapSize * 4) fuel 0

/-! ## Completion client (`js/gemini-client.js`)

`GeminiClient` holds `apiKeys` (primary, then backup, missing keys
filtered out), `models`, `maxRetries`, `retryDelay`, `rateLimitDelay`,
`timeout`, and the mutable `currentKeyIndex`.  `makeRequest` performs
one `fetch`; the network is embedded as an oracle `env : Nat →
FetchOutcome` giving the outcome of the n-th `fetch` actually issued,
and the state counts issued fetches (`reqCount`) and records every
backoff `sleep` duration of `callWithRetry` in order (`waits`).  The
rate-limiter pacing of `applyRateLimit` mutates no client state other
than time and is modeled separately below. -/

/-- A thrown JS `Error` as used by the client: optional `status` field
(absent for `new Error(msg)` without a status assignment) and message. -/
structure JsError where
  status : Option Nat
  msg : String
deriving Repr, DecidableEq

/-- The value returned by a successful `makeRequest`. -/
structure GenResponse where
  text : String
  model : String
deriving Repr, DecidableEq

/-- Outcome of one `fetch` inside `makeRequest`:
* `httpOk t` — `response.ok`, parseable body with candidates whose
  joined parts are `t`;
* `httpErr st m` — `!response.ok` with HTTP status `st` and extracted
  message `m` (the thrown error carries `error.status = st`);
* `aborted` — the timeout fired and the `AbortError` path runs;
* `badFormat` — `response.ok` but no usable candidates
  (`throw new Error('Invalid response format from API')`, no status). -/
inductive FetchOutcome where
  | httpOk (text : String)
  | httpErr (status : Nat) (msg : String)
  | aborted
  | badFormat
deriving Repr, DecidableEq

/-- Configuration of a `GeminiClient` instance. -/
structure ClientConfig where
  apiKeys : List String
  models : List String
  maxRetries : Nat
  retryDelay : Nat
  rateLimitDelay : Nat
  timeout : Nat
deriving Repr, DecidableEq

/-- Mutable client state threaded through a call: the shared
`currentKeyIndex`, the number of fetches issued so far (the index into
the network oracle), and the backoff sleeps performed so far. -/
structure ClientState where
  currentKeyIndex : Nat
  reqCount : Nat
  waits : List Nat
deriving Repr, DecidableEq

/-- `makeRequest(model, requestBody)`: picks
`apiKeys[currentKeyIndex]`; with no key it throws
`'No API key available'` (no status, no fetch).  Otherwise one fetch is
issued and classified: HTTP error statuses become errors carrying that
status, an abort becomes the 408 timeout error, and an unparsable OK
body becomes the no-status format error. -/
def makeRequest (cfg : ClientConfig) (env : Nat → FetchOutcome)
    (model : String) (s : ClientState) :
    Except JsError GenResponse × ClientState :=
  match cfg.apiKeys[s.currentKeyIndex]? with
  | none => (.error ⟨none, "No API key available"⟩, s)
  | some _ =>
    let s' := { s with reqCount := s.reqCount + 1 }
    match env s.reqCount with
    | .httpOk t => (.ok ⟨t, model⟩, s')
    | .httpErr st m => (.error ⟨some st, m⟩, s')
    | .aborted =>
        (.error ⟨some 408,
          "Request timeout after " ++ toString cfg.timeout ++ "ms"⟩, s')
    | .badFormat => (.error ⟨none, "Invalid response format from API"⟩, s')

/-- JS truthiness of `e.status === 429` etc.: a missing `status`
(`undefined`) compares false against every number. -/
def statusIs (e : JsError) (n : Nat) : Bool :=
  match e.status with
  | some st => st = n
  | none => false

/-- JS `e.status >= lo && e.status < hi` with `undefined` status false. -/
def statusIn (e : JsError) (lo hi : Nat) : Bool :=
  match e.status with
  | some st => lo ≤ st ∧ st < hi
  | none => false

/-- The body of `callWithRetry`'s `for (let retry = 0; retry <
this.maxRetries; retry++)` loop.  `retry` is the loop variable, `fuel =
maxRetries - retry` the remaining iterations, `lastError` the
accumulator.  On success the key index resets to primary when it was
on backup and a backup exists.  Failure branches, in source order:
status 429 (switch to backup and continue with no sleep when primary
and a backup exists, else sleep `retryDelay*2^retry + rateLimitDelay`);
5xx (switch to backup when primary and a backup exists, always sleep
`retryDelay*2^retry`); other 4xx (throw immediately); otherwise the
generic branch (sleep `retryDelay*2^retry` unless this was the last
iteration). -/
def callWithRetryGo (cfg : ClientConfig) (env : Nat → FetchOutcome)
    (model : String) :
    Nat → Nat → Option JsError → ClientState →
    Except JsError GenResponse × ClientState
  | _, 0, lastError, s =>
    (.error (lastError.getD ⟨none, "undefined"⟩), s)
  | retry, fuel + 1, _, s =>
    match makeRequest cfg env model s with
    | (.ok resp, s₁) =>
      let s₂ :=
        if s₁.currentKeyIndex ≠ 0 ∧ 1 < cfg.apiKeys.length then
          { s₁ with currentKeyIndex := 0 }
        else s₁
      (.ok resp, s₂)
    | (.error e, s₁) =>
      if statusIs e 429 then
        if s₁.currentKeyIndex = 0 ∧ 1 < cfg.apiKeys.length then
          callWithRetryGo cfg env model (retry + 1) fuel (some e)
            { s₁ with currentKeyIndex := 1 }
        else
          callWithRetryGo cfg env model (retry + 1) fuel (some e)
            { s₁ with waits :=
                s₁.waits ++ [cfg.retryDelay * 2 ^ retry + cfg.rateLimitDelay] }
      else if statusIn e 500 600 then
        let s₂ :=
          if s₁.currentKeyIndex = 0 ∧ 1 < cfg.apiKeys.length then
            { s₁ with currentKeyIndex := 1 }
          else s₁
        callWithRetryGo cfg env model (retry + 1) fuel (some e)
          { s₂ with waits := s₂.waits ++ [cfg.retryDelay * 2 ^ retry] }
      else if statusIn e 400 500 ∧ ¬ statusIs e 429 then
        (.error e, s₁)
      else
        callWithRetryGo cfg env model (retry + 1) fuel (some e)
          (if retry < cfg.maxRetries - 1 then
            { s₁ with waits := s₁.waits ++ [cfg.retryDelay * 2 ^ retry] }
          else s₁)

/-- `callWithRetry(model, requestBody, modelIndex)`: the retry loop
started at `retry = 0` with `maxRetries` iterations and no last error. -/
def callWithRetry (cfg : ClientConfig) (env : Nat → FetchOutcome)
    (model : String) (s : ClientState) :
    Except JsError GenResponse × ClientState :=
  callWithRetryGo cfg env model 0 cfg.maxRetries none s

/-- `generateContent(prompt, options)` at `modelIndex`: rejects with
`'No model available'` when `models[modelIndex]` is `undefined`;
otherwise runs `callWithRetry` for that model and, on failure, recurses
on `modelIndex + 1` when `modelIndex < models.length - 1`, else
rethrows the last error. -/
def generateContent (cfg : ClientConfig) (env : Nat → FetchOutcome)
    (modelIndex : Nat) (s : ClientState) :
    Except JsError GenResponse × ClientState :=
  match cfg.models[modelIndex]? with
  | none => (.error ⟨none, "No model available"⟩, s)
  | some m =>
    match callWithRetry cfg env m s with
    | (.ok r, s') => (.ok r, s')
    | (.error e, s') =>
      if _h : modelIndex < cfg.models.length - 1 then
        generateContent cfg env (modelIndex + 1) s'
      else
        (.error e, s')
termination_by cfg.models.length - modelIndex
decreasing_by omega

/-! ## Text processor (`js/text-processor.js`, `TextProcessor.process`)

`process(text)` builds batches with `createBatches` and then runs a
sequential `for` loop: each batch is transformed (one awaited call),
a success pushes a `success: true` record and a failure pushes both an
error record and a `success: false` record; finally the transformed
text is `results.filter(r => r.success).map(r =>
r.transformedText).join('\n\n')`.  The transformation call is embedded
as an oracle from batch to `Except` error-message/output.  The loop and
assembly are embedded over a given batch list. -/

/-- A batch object as produced by `TextProcessor.createBatches` /
consumed by `BatchProcessor` (offsets and token count omitted). -/
structure PBatch where
  id : String
  batchNumber : Nat
  text : String
deriving Repr, DecidableEq

/-- One element of the `results` array pushed by `process`. -/
structure BatchResult where
  batchId : String
  batchNumber : Nat
  originalText : String
  transformedText : Option String
  error : Option String
  success : Bool
deriving Repr, DecidableEq

/-- One element of the `errors` array pushed by `process`. -/
structure BatchError where
  batchId : String
  batchNumber : Nat
  error : String
  originalText : String
deriving Repr, DecidableEq

/-- The `for (let i = 0; i < batches.length; i++)` loop of `process`:
returns the `results` and `errors` arrays.  `i` is the 0-based loop
index (records carry `batchNumber = i + 1`). -/
def processGo (outcome : PBatch → Except String String) :
    List PBatch → Nat → List BatchResult × List BatchError
  | [], _ => ([], [])
  | b :: rest, i =>
    let tail := processGo outcome rest (i + 1)
    match outcome b with
    | .ok t =>
      (⟨b.id, i + 1, b.text, some t, none, true⟩ :: tail.1, tail.2)
    | .error m =>
      (⟨b.id, i + 1, b.text, none, some m, false⟩ :: tail.1,
       ⟨b.id, i + 1, m, b.text⟩ :: tail.2)

/-- The final combination step of `process`:
`results.filter(r => r.success).map(r => r.transformedText).join('\n\n')`. -/
def combineResults (results : List BatchResult) : String :=
  String.intercalate "\n\n"
    ((results.filter (fun r => r.success)).map
      (fun r => r.transformedText.getD ""))

/-- The value returned by `process` (original text and raw stats
fields omitted; `successfulBatches`/`failedBatches` are the counts the
`stats` object derives from `results` and `errors`). -/
structure ProcessOutput where
  transformedText : String
  results : List BatchResult
  errors : List BatchError
  successfulBatches : Nat
  failedBatches : Nat
deriving Repr, DecidableEq

/-- `TextProcessor.process` from the point where `createBatches` has
produced `batches`: the sequential transformation loop followed by the
assembly and stats. -/
def processBatchList (outcome : PBatch → Except String String)
    (batches : List PBatch) : ProcessOutput :=
  let ⟨results, errors⟩ := processGo outcome batches 0
  { transformedText := combineResults results
    results := results
    errors := errors
    successfulBatches := (results.filter (fun r => r.success)).length
    failedBatches := errors.length }

/-! ## Batch processor (`js/batch-processor.js`)

`BatchProcessor.processBatches` resets the queue/maps/flags, spawns
`concurrency` workers (`maxConcurrent` in turbo mode, else 1) and waits
for them.  Each `worker` runs the cooperative loop of lines 84–151.
JS `Map`s become association lists with `Map.set` / `Map.delete`
semantics.  The event loop is embedded as a small-step relation whose
steps are the code segments between `await` points; `cancel`, `pause`
and `resume` may be interleaved at any step boundary. -/

/-- JS `Map.prototype.set`: replace in place when the key exists,
append otherwise. -/
def mapSet {V : Type} : List (String × V) → String → V → List (String × V)
  | [], k, v => [(k, v)]
  | (k', v') :: rest, k, v =>
    if k' = k then (k, v) :: rest else (k', v') :: mapSet rest k v

/-- JS `Map.prototype.delete` (dropping the returned boolean). -/
def mapDelete {V : Type} (m : List (String × V)) (k : String) :
    List (String × V) :=
  m.filter (fun p => p.1 ≠ k)

/-- Key membership in an embedded JS `Map`. -/
def mapHas {V : Type} (m : List (String × V)) (k : String) : Bool :=
  m.any (fun p => p.1 = k)

/-- JS `String.prototype.includes('429')`. -/
def includes429 (s : String) : Bool :=
  2 ≤ (s.splitOn "429").length

/-- `hasRecentRateLimits()`: more than 2 failed batches whose error
message contains `'429'`. -/
def hasRecentRateLimits (failed : List (String × PBatch × String)) : Bool :=
  2 < (failed.filter (fun p => includes429 p.2.2)).length

/-- Control position of one worker between `await` points:
at the `while` loop head, inside the pause-poll `sleep(100)`, awaiting
`processBatch` for a dequeued batch, or returned. -/
inductive WStatus where
  | atTop
  | pausedWait
  | inFlight (b : PBatch)
  | done
deriving Repr, DecidableEq

/-- Pointwise update of a worker assignment. -/
def setFn {α : Type} (f : Nat → α) (i : Nat) (a : α) : Nat → α :=
  fun j => if j = i then a else f j

/-- The shared state of a `BatchProcessor` run: the pending queue, the
three id-keyed maps (`processing`, `completed` mapping to the batch and
its result text, `failed` mapping to the batch and its error message),
the `paused`/`cancelled` flags, and each worker's control position. -/
structure BPState where
  queue : List PBatch
  processing : List (String × PBatch)
  completed : List (String × PBatch × String)
  failed : List (String × PBatch × String)
  paused : Bool
  cancelled : Bool
  workers : Nat → WStatus

/-- Post-state of a worker's successful `processBatch` resolution:
`processing.delete(batch.id)`, `completed.set(batch.id, {...batch,
result})`, then the adaptive-throttling check (`turboMode &&
hasRecentRateLimits() && workerId > 0` breaks the loop), else back to
the loop head. -/
def resolveOkTarget (tm : Bool) (s : BPState) (i : Nat) (b : PBatch)
    (r : String) : BPState :=
  { s with
    processing := mapDelete s.processing b.id
    completed := mapSet s.completed b.id (b, r)
    workers := setFn s.workers i
      (if tm && hasRecentRateLimits s.failed && decide (0 < i) then
        .done
      else .atTop) }

/-- Post-state of a worker's failed `processBatch` resolution:
`processing.delete(batch.id)`, `failed.set(batch.id, {...batch,
error})`, then the same adaptive-throttling check (which reads the
just-updated `failed` map). -/
def resolveErrTarget (tm : Bool) (s : BPState) (i : Nat) (b : PBatch)
    (m : String) : BPState :=
  { s with
    processing := mapDelete s.processing b.id
    failed := mapSet s.failed b.id (b, m)
    workers := setFn s.workers i
      (if tm && hasRecentRateLimits (mapSet s.failed b.id (b, m))
          && decide (0 < i) then
        .done
      else .atTop) }

/-- One atomic event-loop step of a `BatchProcessor` run with
`turboMode = tm`.  Worker steps follow `worker` (lines 84–151):

* `finishAtTop`: the `while (queue.length > 0 && !cancelled)` condition
  fails and the worker returns.
* `pauseAtTop`: the condition holds but `paused` is set, so the worker
  enters the pause-poll `sleep(100)`.
* `dequeueAtTop`: the condition holds, not paused, so the cancelled
  re-check passes and `queue.shift()` claims the head batch, which is
  put into `processing` (all in one synchronous segment).
* `pausedSleep`: one more `sleep(100)` iteration while still paused.
* `cancelledInPause`: the pause loop exits because `cancelled` was set,
  and the `if (this.cancelled) break` fires.
* `resumedEmpty` / `resumedDequeue`: the pause loop exits by resume;
  `queue.shift()` then either yields `undefined` (worker returns) or
  claims the head batch.
* `resolveOk` / `resolveErr`: the awaited `processBatch` settles and
  the worker records the outcome — this is never guarded by
  `cancelled`, an in-flight call always finishes naturally.
* `cancel` / `pause` / `resume` are the external control methods, which
  only set the corresponding flag. -/
inductive Step (tm : Bool) : BPState → BPState → Prop where
  | cancel (s : BPState) :
      Step tm s { s with cancelled := true }
  | pause (s : BPState) :
      Step tm s { s with paused := true }
  | resume (s : BPState) :
      Step tm s { s with paused := false }
  | finishAtTop (s : BPState) (i : Nat) :
      s.workers i = .atTop → (s.queue = [] ∨ s.cancelled = true) →
      Step tm s { s with workers := setFn s.workers i .done }
  | pauseAtTop (s : BPState) (i : Nat) :
      s.workers i = .atTop → s.queue ≠ [] → s.cancelled = false →
      s.paused = true →
      Step tm s { s with workers := setFn s.workers i .pausedWait }
  | dequeueAtTop (s : BPState) (i : Nat) (b : PBatch) (rest : List PBatch) :
      s.workers i = .atTop → s.queue = b :: rest → s.cancelled = false →
      s.paused = false →
      Step tm s { s with
        queue := rest
        processing := mapSet s.processing b.id b
        workers := setFn s.workers i (.inFlight b) }
  | pausedSleep (s : BPState) (i : Nat) :
      s.workers i = .pausedWait → s.cancelled = false → s.paused = true →
      Step tm s s
  | cancelledInPause (s : BPState) (i : Nat) :
      s.workers i = .pausedWait → s.cancelled = true →
      Step tm s { s with workers := setFn s.workers i .done }
  | resumedEmpty (s : BPState) (i : Nat) :
      s.workers i = .pausedWait → s.cancelled = false → s.paused = false →
      s.queue = [] →
      Step tm s { s with workers := setFn s.workers i .done }
  | resumedDequeue (s : BPState) (i : Nat) (b : PBatch) (rest : List PBatch) :
      s.workers i = .pausedWait → s.cancelled = false → s.paused = false →
      s.queue = b :: rest →
      Step tm s { s with
        queue := rest
        processing := mapSet s.processing b.id b
        workers := setFn s.workers i (.inFlight b) }
  | resolveOk (s : BPState) (i : Nat) (b : PBatch) (r : String) :
      s.workers i = .inFlight b →
      Step tm s (resolveOkTarget tm s i b r)
  | resolveErr (s : BPState) (i : Nat) (b : PBatch) (m : String) :
      s.workers i = .inFlight b →
      Step tm s (resolveErrTarget tm s i b m)

/-- Finitely many event-loop steps. -/
def StepStar (tm : Bool) : BPState → BPState → Prop :=
  Relation.ReflTransGen (Step tm)

/-- The initialization segment of `processBatches` (lines 39–44): copy
the batch list into the queue, clear the three maps, reset both flags;
then `concurrency` workers are spawned at the loop head
(`concurrency = turboMode ? maxConcurrent : 1`). -/
def initRun (s : BPState) (batches : List PBatch) (concurrency : Nat) :
    BPState :=
  { queue := batches
    processing := []
    completed := []
    failed := []
    paused := false
    cancelled := false
    workers := fun i => if i < concurrency then .atTop else .done }

/-- `concurrency = this.turboMode ? this.maxConcurrent : 1`. -/
def runConcurrency (tm : Bool) (maxConcurrent : Nat) : Nat :=
  if tm then maxConcurrent else 1

/-! ## Rate limiter (`js/gemini-client.js`, `applyRateLimit` and the
`rateLimitState` updates in `makeRequest`)

`applyRateLimit()` reads `Date.now()` and `rateLimitState.lastRequest`;
if less than `rateLimitDelay` has elapsed it sleeps for the remainder.
It writes nothing: `lastRequest` is only updated inside `makeRequest`,
after the `fetch` has completed.  The timed behavior is embedded as a
transition system over a virtual clock: each worker runs
`applyRateLimit` atomically (`runRL`), possibly sleeps, then issues its
`fetch` (`dispatch`, the outbound call) and later completes
(`complete`, which records `lastRequest = Date.now()`). -/

/-- Control position of one worker with respect to the rate limiter. -/
inductive RLWorker where
  | beforeRL
  | sleepingUntil (t : Nat)
  | readyToDispatch
  | awaitingResponse (dispatchTime : Nat)
  | finished (dispatchTime doneTime : Nat)
deriving Repr, DecidableEq

/-- Shared rate-limiter state: the virtual clock, the recorded
`rateLimitState.lastRequest`, and each worker's position. -/
structure RLState where
  now : Nat
  lastRequest : Nat
  workers : Nat → RLWorker

/-- Result of the `applyRateLimit` body at clock `now` with recorded
`lastRequest`: sleep until `now + (delay - (now - lastRequest))` when
the elapsed time is under `delay`, else proceed at once. -/
def applyRateLimit (delay now lastRequest : Nat) : RLWorker :=
  if now - lastRequest < delay then
    .sleepingUntil (now + (delay - (now - lastRequest)))
  else
    .readyToDispatch

/-- One step of the timed rate-limiter system: the clock may advance,
a worker may run `applyRateLimit`, wake once its sleep expires,
issue its `fetch`, or complete it (recording `lastRequest`). -/
inductive RLStep (delay : Nat) : RLState → RLState → Prop where
  | tick (s : RLState) (t : Nat) :
      s.now ≤ t → RLStep delay s { s with now := t }
  | runRL (s : RLState) (i : Nat) :
      s.workers i = .beforeRL →
      RLStep delay s { s with
        workers := setFn s.workers i (applyRateLimit delay s.now s.lastRequest) }
  | wake (s : RLState) (i : Nat) (t : Nat) :
      s.workers i = .sleepingUntil t → t ≤ s.now →
      RLStep delay s { s with workers := setFn s.workers i .readyToDispatch }
  | dispatch (s : RLState) (i : Nat) :
      s.workers i = .readyToDispatch →
      RLStep delay s
        { s with workers := setFn s.workers i (.awaitingResponse s.now) }
  | complete (s : RLState) (i : Nat) (d : Nat) :
      s.workers i = .awaitingResponse d →
      RLStep delay s { s with
        lastRequest := s.now
        workers := setFn s.workers i (.finished d s.now) }

/-- Finitely many rate-limiter steps. -/
def RLStepStar (delay : Nat) : RLState → RLState → Prop :=
  Relation.ReflTransGen (RLStep delay)

/-! ## Theorems: chunker (claims C1, C2) -/

/-- With any positive overlap, the loop of `chunkText` can never exit:
from any loop variable `start < text.length`, the next value is again
`< text.length` (once the window reaches the end of the text, `start`
is set back to `text.length - overlapChars` and the guard
`if (start >= end)` never fires since `overlapChars > 0`), so every
fuel runs out. -/
theorem chunkTextGo_no_exit (text : String) (bc oc : Int) (hoc : 0 < oc) :
    ∀ fuel start, start < (text.length : Int) →
      chunkTextGo text bc oc fuel start = none := by
  intro fuel
  induction fuel with
  | zero =>
    intro start h
    simp [chunkTextGo, h]
  | succ n ih =>
    intro start h
    have hmin : min (start + bc) (text.length : Int) ≤ (text.length : Int) :=
      min_le_right _ _
    have hguard :
        ¬ (min (start + bc) (text.length : Int) - oc ≥
            min (start + bc) (text.length : Int)) := by omega
    have hlt :
        min (start + bc) (text.length : Int) - oc < (text.length : Int) := by
      omega
    simp [chunkTextGo, h, chunkStep, hguard, ih _ hlt]

/-- C1: the claim states that for every text and every configuration
with `batchSize > 0`, `overlapSize ≥ 0` — including `overlapSize ≥
batchSize` — `chunkText` terminates in finitely many steps because the
clamp guarantees forward progress.  The code violates this: for every
nonempty text and every `overlapSize ≥ 1` (whatever the batch size and
however much fuel the loop is given), the loop never reaches its exit
condition — the clamp `if (start >= end) start = end` only fires when
`overlapChars ≤ 0`, so once the window reaches the end of the text the
loop re-emits the final window forever. -/
theorem chunkText_never_terminates (text : String)
    (batchSize overlapSize : Int) (fuel : Nat)
    (hov : 1 ≤ overlapSize) (hne : text.length ≠ 0) :
    chunkText text batchSize overlapSize fuel = none := by
  have hlen : (0 : Int) < (text.length : Int) := by
    exact_mod_cast Nat.pos_of_ne_zero hne
  exact chunkTextGo_no_exit text (batchSize * 4) (overlapSize * 4)
    (by omega) fuel 0 hlen

/-- Witness for C1: the 5-character text `"hello"` with `batchSize = 1`
and `overlapSize = 1` never terminates (here run with fuel 30). -/
theorem chunkText_never_terminates_witness :
    chunkText "hello" 1 1 30 = none :=
  chunkText_never_terminates "hello" 1 1 30 (by decide) (by decide)

/-- C2: the claim states that a 45,000-character text with
`batchSize = 10000` and `overlapSize = 200` yields exactly the two
chunks `[0, 40000)` and `[39200, 45000)`.  The code instead diverges:
the first two loop iterations do produce exactly those windows, but the
third iteration enters at `start = 44200` and maps `44200 ↦ 44200`, so
the loop re-emits the window `[44200, 45000)` forever and `chunkText`
never returns, for any amount of fuel. -/
theorem chunkText_scenarioA_diverges (text : String) (fuel : Nat)
    (h : text.length = 45000) :
    chunkStep 45000 40000 800 0 = ((0, 40000), 39200) ∧
    chunkStep 45000 40000 800 39200 = ((39200, 45000), 44200) ∧
    chunkStep 45000 40000 800 44200 = ((44200, 45000), 44200) ∧
    chunkText text 10000 200 fuel = none := by
  refine ⟨by decide, by decide, by decide, ?_⟩
  have hlen : (0 : Int) < (text.length : Int) := by
    rw [h]; norm_num
  exact chunkTextGo_no_exit text (10000 * 4) (200 * 4) (by norm_num) fuel 0 hlen

/-- Witness for C2: a concrete 45,000-character text (45,000 copies of
`'a'`), run with fuel 3. -/
theorem chunkText_scenarioA_diverges_witness :
    chunkStep 45000 40000 800 0 = ((0, 40000), 39200) ∧
    chunkStep 45000 40000 800 39200 = ((39200, 45000), 44200) ∧
    chunkStep 45000 40000 800 44200 = ((44200, 45000), 44200) ∧
    chunkText (String.mk (List.replicate 45000 'a')) 10000 200 3 = none :=
  chunkText_scenarioA_diverges (String.mk (List.replicate 45000 'a')) 3
    (by simp only [String.length, List.length_replicate])

/-! ## Theorems: retry loop and model cascade (claim C3) -/

/-- Helper: a valid key index yields some key. -/
theorem apiKey_get_some {cfg : ClientConfig} {i : Nat}
    (h : i < cfg.apiKeys.length) :
    ∃ k, cfg.apiKeys[i]? = some k :=
  ⟨cfg.apiKeys[i], List.getElem?_eq_getElem h⟩

/-- Unfolding the loop body at a successful attempt: the response is
returned and the key index resets to primary exactly when it was on
backup and a backup exists. -/
theorem callWithRetryGo_ok_step (cfg : ClientConfig)
    (env : Nat → FetchOutcome) (model : String) (retry fuel : Nat)
    (le : Option JsError) (s : ClientState) (k : String) (t : String)
    (hk : cfg.apiKeys[s.currentKeyIndex]? = some k)
    (he : env s.reqCount = .httpOk t) :
    callWithRetryGo cfg env model retry (fuel + 1) le s =
      (.ok ⟨t, model⟩,
        if s.currentKeyIndex ≠ 0 ∧ 1 < cfg.apiKeys.length then
          { s with currentKeyIndex := 0, reqCount := s.reqCount + 1 }
        else { s with reqCount := s.reqCount + 1 }) := by
  by_cases h : s.currentKeyIndex ≠ 0 ∧ 1 < cfg.apiKeys.length <;>
    simp [callWithRetryGo, makeRequest, hk, he, h]

/-- Unfolding the loop body at a rate-limited attempt (HTTP 429) while
the active credential is primary and a backup exists: the loop switches
to the backup key and continues immediately, recording no sleep. -/
theorem callWithRetryGo_429_switch_step (cfg : ClientConfig)
    (env : Nat → FetchOutcome) (model : String) (retry fuel : Nat)
    (le : Option JsError) (s : ClientState) (k : String) (m : String)
    (hk : cfg.apiKeys[s.currentKeyIndex]? = some k)
    (he : env s.reqCount = .httpErr 429 m)
    (h0 : s.currentKeyIndex = 0) (h2 : 1 < cfg.apiKeys.length) :
    callWithRetryGo cfg env model retry (fuel + 1) le s =
      callWithRetryGo cfg env model (retry + 1) fuel (some ⟨some 429, m⟩)
        { s with currentKeyIndex := 1, reqCount := s.reqCount + 1 } := by
  have hk0 : cfg.apiKeys[(0 : Nat)]? = some k := h0 ▸ hk
  simp [callWithRetryGo, makeRequest, hk, hk0, he, statusIs, h0, h2]

/-- Unfolding the loop body at a rate-limited attempt (HTTP 429) when
no switch is possible: the loop sleeps
`retryDelay * 2^retry + rateLimitDelay` and continues. -/
theorem callWithRetryGo_429_wait_step (cfg : ClientConfig)
    (env : Nat → FetchOutcome) (model : String) (retry fuel : Nat)
    (le : Option JsError) (s : ClientState) (k : String) (m : String)
    (hk : cfg.apiKeys[s.currentKeyIndex]? = some k)
    (he : env s.reqCount = .httpErr 429 m)
    (hno : ¬ (s.currentKeyIndex = 0 ∧ 1 < cfg.apiKeys.length)) :
    callWithRetryGo cfg env model retry (fuel + 1) le s =
      callWithRetryGo cfg env model (retry + 1) fuel (some ⟨some 429, m⟩)
        { s with reqCount := s.reqCount + 1,
                 waits := s.waits ++
                   [cfg.retryDelay * 2 ^ retry + cfg.rateLimitDelay] } := by
  simp only [callWithRetryGo, makeRequest, hk, he, statusIs]
  simp [hno]

/-- Unfolding the loop body at a server-error attempt (HTTP 5xx): the
key switches to backup when primary and a backup exists, and the loop
always sleeps `retryDelay * 2^retry` before continuing. -/
theorem callWithRetryGo_5xx_step (cfg : ClientConfig)
    (env : Nat → FetchOutcome) (model : String) (retry fuel : Nat)
    (le : Option JsError) (s : ClientState) (k : String)
    (stv : Nat) (m : String)
    (hk : cfg.apiKeys[s.currentKeyIndex]? = some k)
    (he : env s.reqCount = .httpErr stv m)
    (h5 : 500 ≤ stv) (h6 : stv < 600) :
    callWithRetryGo cfg env model retry (fuel + 1) le s =
      callWithRetryGo cfg env model (retry + 1) fuel (some ⟨some stv, m⟩)
        { s with
          currentKeyIndex :=
            if s.currentKeyIndex = 0 ∧ 1 < cfg.apiKeys.length then 1
            else s.currentKeyIndex,
          reqCount := s.reqCount + 1,
          waits := s.waits ++ [cfg.retryDelay * 2 ^ retry] } := by
  have h429 : statusIs ⟨some stv, m⟩ 429 = false := by
    simp [statusIs]
    omega
  have h5xx : statusIn ⟨some stv, m⟩ 500 600 = true := by
    simp [statusIn]
    omega
  by_cases hsw : s.currentKeyIndex = 0 ∧ 1 < cfg.apiKeys.length
  · have hk0 : cfg.apiKeys[(0 : Nat)]? = some k := hsw.1 ▸ hk
    simp [callWithRetryGo, makeRequest, hk, hk0, he, h429, h5xx, hsw]
  · simp [callWithRetryGo, makeRequest, hk, he, h429, h5xx, hsw]

/-- Unfolding the loop body at a client-error attempt (4xx other than
429) — including the 408 produced by the request timeout: the error is
rethrown at once, ending the loop with no further attempt and no sleep. -/
theorem callWithRetryGo_4xx_throw (cfg : ClientConfig)
    (env : Nat → FetchOutcome) (model : String) (retry fuel : Nat)
    (le : Option JsError) (s : ClientState) (k : String)
    (stv : Nat) (m : String)
    (hk : cfg.apiKeys[s.currentKeyIndex]? = some k)
    (he : env s.reqCount = .httpErr stv m)
    (h4 : 400 ≤ stv) (h5 : stv < 500) (hne : stv ≠ 429) :
    callWithRetryGo cfg env model retry (fuel + 1) le s =
      (.error ⟨some stv, m⟩, { s with reqCount := s.reqCount + 1 }) := by
  have h429 : statusIs ⟨some stv, m⟩ 429 = false := by
    simp [statusIs]
    omega
  have h5xx : statusIn ⟨some stv, m⟩ 500 600 = false := by
    simp [statusIn]
    omega
  have h4xx : statusIn ⟨some stv, m⟩ 400 500 = true := by
    simp [statusIn]
    omega
  simp [callWithRetryGo, makeRequest, hk, he, h429, h5xx, h4xx]

/-- Unfolding the loop body at an aborted (timed-out) attempt: by
`callWithRetryGo_4xx_throw` with the 408 status that `makeRequest`
assigns, the timeout error is rethrown immediately. -/
theorem callWithRetryGo_timeout_throw (cfg : ClientConfig)
    (env : Nat → FetchOutcome) (model : String) (retry fuel : Nat)
    (le : Option JsError) (s : ClientState) (k : String)
    (hk : cfg.apiKeys[s.currentKeyIndex]? = some k)
    (he : env s.reqCount = .aborted) :
    callWithRetryGo cfg env model retry (fuel + 1) le s =
      (.error ⟨some 408,
          "Request timeout after " ++ toString cfg.timeout ++ "ms"⟩,
        { s with reqCount := s.reqCount + 1 }) := by
  have h429 : statusIs ⟨some 408, "Request timeout after " ++
      toString cfg.timeout ++ "ms"⟩ 429 = false := by
    simp [statusIs]
  have h5xx : statusIn ⟨some 408, "Request timeout after " ++
      toString cfg.timeout ++ "ms"⟩ 500 600 = false := by
    simp [statusIn]
  have h4xx : statusIn ⟨some 408, "Request timeout after " ++
      toString cfg.timeout ++ "ms"⟩ 400 500 = true := by
    simp [statusIn]
  simp [callWithRetryGo, makeRequest, hk, he, h429, h5xx, h4xx]

/-- Unfolding the loop body when no API key is available: the
no-status error takes the generic branch, so the loop sleeps
`retryDelay * 2^retry` (except on the final iteration) and retries —
no network request is ever issued. -/
theorem callWithRetryGo_nokey_step (cfg : ClientConfig)
    (env : Nat → FetchOutcome) (model : String) (retry fuel : Nat)
    (le : Option JsError) (s : ClientState)
    (hk : cfg.apiKeys[s.currentKeyIndex]? = none) :
    callWithRetryGo cfg env model retry (fuel + 1) le s =
      callWithRetryGo cfg env model (retry + 1) fuel
        (some ⟨none, "No API key available"⟩)
        (if retry < cfg.maxRetries - 1 then
          { s with waits := s.waits ++ [cfg.retryDelay * 2 ^ retry] }
        else s) := by
  simp [callWithRetryGo, makeRequest, hk, statusIs, statusIn]

/-- Under a network that answers every request with a server error
(5xx), each run of the retry loop with `n + 1` remaining iterations
performs exactly `n + 1` requests, ends with the error of its last
request, and keeps the key index in range. -/
theorem callWithRetryGo_serverErr (cfg : ClientConfig)
    (env : Nat → FetchOutcome) (st : Nat → Nat) (msg : Nat → String)
    (henv : ∀ n, env n = .httpErr (st n) (msg n))
    (hst : ∀ n, 500 ≤ st n ∧ st n < 600) (model : String) :
    ∀ n retry le s, s.currentKeyIndex < cfg.apiKeys.length →
      (callWithRetryGo cfg env model retry (n + 1) le s).1 =
        .error ⟨some (st (s.reqCount + n)), msg (s.reqCount + n)⟩ ∧
      (callWithRetryGo cfg env model retry (n + 1) le s).2.reqCount =
        s.reqCount + n + 1 ∧
      (callWithRetryGo cfg env model retry (n + 1) le s).2.currentKeyIndex <
        cfg.apiKeys.length := by
  intro n
  induction n with
  | zero =>
    intro retry le s hkey
    obtain ⟨k, hk⟩ := apiKey_get_some hkey
    rw [callWithRetryGo_5xx_step cfg env model retry 0 le s k _ _ hk
      (henv s.reqCount) (hst s.reqCount).1 (hst s.reqCount).2]
    refine ⟨rfl, rfl, ?_⟩
    simp only [callWithRetryGo]
    split
    · omega
    · exact hkey
  | succ m ih =>
    intro retry le s hkey
    rw [callWithRetryGo_5xx_step cfg env model retry (m + 1) le s
      (cfg.apiKeys[s.currentKeyIndex]) _ _
      (List.getElem?_eq_getElem hkey) (henv s.reqCount)
      (hst s.reqCount).1 (hst s.reqCount).2]
    have hrec := ih (retry + 1) (some ⟨some (st s.reqCount), msg s.reqCount⟩)
      { s with
        currentKeyIndex :=
          if s.currentKeyIndex = 0 ∧ 1 < cfg.apiKeys.length then 1
          else s.currentKeyIndex,
        reqCount := s.reqCount + 1,
        waits := s.waits ++ [cfg.retryDelay * 2 ^ retry] }
      (by dsimp only; split <;> omega)
    dsimp only at hrec
    have e1 : s.reqCount + 1 + m = s.reqCount + (m + 1) := by omega
    rw [e1] at hrec
    exact hrec

/-- `callWithRetry` under an all-server-error network: exactly
`maxRetries` requests are made for the model, the returned error is the
one thrown by the last of them, and the key index stays in range. -/
theorem callWithRetry_serverErr (cfg : ClientConfig)
    (env : Nat → FetchOutcome) (st : Nat → Nat) (msg : Nat → String)
    (henv : ∀ n, env n = .httpErr (st n) (msg n))
    (hst : ∀ n, 500 ≤ st n ∧ st n < 600) (model : String)
    (hmr : 0 < cfg.maxRetries) :
    ∀ s, s.currentKeyIndex < cfg.apiKeys.length →
      (callWithRetry cfg env model s).1 =
        .error ⟨some (st (s.reqCount + cfg.maxRetries - 1)),
                msg (s.reqCount + cfg.maxRetries - 1)⟩ ∧
      (callWithRetry cfg env model s).2.reqCount =
        s.reqCount + cfg.maxRetries ∧
      (callWithRetry cfg env model s).2.currentKeyIndex <
        cfg.apiKeys.length := by
  intro s hkey
  obtain ⟨n, hn⟩ : ∃ n, cfg.maxRetries = n + 1 :=
    ⟨cfg.maxRetries - 1, by omega⟩
  have hc := callWithRetryGo_serverErr cfg env st msg henv hst model n
    0 none s hkey
  have e2 : s.reqCount + n + 1 = s.reqCount + (n + 1) := by omega
  have e1 : s.reqCount + n = s.reqCount + (n + 1) - 1 := by omega
  rw [e2, e1] at hc
  rw [callWithRetry, hn]
  exact hc

/-- `generateContent` under an all-server-error network, from any model
index in range: every remaining model tier is retried `maxRetries`
times, the final rejection is the error of the very last request, and
the total request count is `(#models - modelIndex) * maxRetries`. -/
theorem generateContent_serverErr (cfg : ClientConfig)
    (env : Nat → FetchOutcome) (st : Nat → Nat) (msg : Nat → String)
    (henv : ∀ n, env n = .httpErr (st n) (msg n))
    (hst : ∀ n, 500 ≤ st n ∧ st n < 600) (hmr : 0 < cfg.maxRetries) :
    ∀ d mi s, cfg.models.length - mi = d + 1 → mi < cfg.models.length →
      s.currentKeyIndex < cfg.apiKeys.length →
      (generateContent cfg env mi s).1 =
        .error ⟨some (st (s.reqCount +
            (cfg.models.length - mi) * cfg.maxRetries - 1)),
          msg (s.reqCount + (cfg.models.length - mi) * cfg.maxRetries - 1)⟩ ∧
      (generateContent cfg env mi s).2.reqCount =
        s.reqCount + (cfg.models.length - mi) * cfg.maxRetries := by
  intro d
  induction d with
  | zero =>
    intro mi s hd hmi hkey
    have hm : cfg.models[mi]? = some cfg.models[mi] :=
      List.getElem?_eq_getElem hmi
    have hcall := callWithRetry_serverErr cfg env st msg henv hst
      cfg.models[mi] hmr s hkey
    rcases hres : callWithRetry cfg env cfg.models[mi] s with ⟨r, s2⟩
    rw [hres] at hcall
    dsimp only at hcall
    have hlast : ¬ (mi < cfg.models.length - 1) := by omega
    rw [generateContent, hm]
    simp only [hres, hcall.1, hlast, dite_false]
    have e1 : (cfg.models.length - mi) * cfg.maxRetries = cfg.maxRetries := by
      rw [hd]
      ring
    rw [e1]
    exact ⟨rfl, hcall.2.1⟩
  | succ d ih =>
    intro mi s hd hmi hkey
    have hm : cfg.models[mi]? = some cfg.models[mi] :=
      List.getElem?_eq_getElem hmi
    have hcall := callWithRetry_serverErr cfg env st msg henv hst
      cfg.models[mi] hmr s hkey
    rcases hres : callWithRetry cfg env cfg.models[mi] s with ⟨r, s2⟩
    rw [hres] at hcall
    dsimp only at hcall
    have hlt : mi < cfg.models.length - 1 := by omega
    rw [generateContent, hm]
    simp only [hres, hcall.1, hlt, dite_true]
    have hrec := ih (mi + 1) s2 (by omega) (by omega) hcall.2.2
    rw [hcall.2.1] at hrec
    have e1 : s.reqCount + cfg.maxRetries +
        (cfg.models.length - (mi + 1)) * cfg.maxRetries =
        s.reqCount + (cfg.models.length - mi) * cfg.maxRetries := by
      have h2 : cfg.models.length - mi = (cfg.models.length - (mi + 1)) + 1 := by
        omega
      rw [h2]
      ring
    rw [e1] at hrec
    exact hrec

/-- C3: for every prompt (the oracle is arbitrary in the request body)
and every non-empty model list, under a network that fails every
attempt with a server error: each `callWithRetry` invocation — one per
model tier — performs exactly `maxRetries` fresh attempts and ends with
its last attempt's error, and `generateContent` starting at model 0
walks every tier, makes `models.length * maxRetries` requests in total,
and rejects with the error observed on the very last request, i.e. the
error of the last model attempted. -/
theorem generateContent_model_cascade (cfg : ClientConfig)
    (env : Nat → FetchOutcome) (st : Nat → Nat) (msg : Nat → String)
    (henv : ∀ n, env n = .httpErr (st n) (msg n))
    (hst : ∀ n, 500 ≤ st n ∧ st n < 600)
    (hmodels : cfg.models ≠ []) (hmr : 0 < cfg.maxRetries)
    (hkeys : cfg.apiKeys ≠ []) :
    (∀ model s, s.currentKeyIndex < cfg.apiKeys.length →
      (callWithRetry cfg env model s).1 =
        .error ⟨some (st (s.reqCount + cfg.maxRetries - 1)),
                msg (s.reqCount + cfg.maxRetries - 1)⟩ ∧
      (callWithRetry cfg env model s).2.reqCount =
        s.reqCount + cfg.maxRetries) ∧
    (generateContent cfg env 0 ⟨0, 0, []⟩).1 =
      .error ⟨some (st (cfg.models.length * cfg.maxRetries - 1)),
              msg (cfg.models.length * cfg.maxRetries - 1)⟩ ∧
    (generateContent cfg env 0 ⟨0, 0, []⟩).2.reqCount =
      cfg.models.length * cfg.maxRetries := by
  have hmlen : 0 < cfg.models.length := List.length_pos.mpr hmodels
  have hklen : 0 < cfg.apiKeys.length := List.length_pos.mpr hkeys
  refine ⟨?_, ?_⟩
  · intro model s hkey
    have h := callWithRetry_serverErr cfg env st msg henv hst model hmr s hkey
    exact ⟨h.1, h.2.1⟩
  · have h := generateContent_serverErr cfg env st msg henv hst hmr
      (cfg.models.length - 1) 0 ⟨0, 0, []⟩ (by omega) hmlen hklen
    simpa using h

/-- Witness configuration for C3: three models, two retries, one key. -/
def cfgC3 : ClientConfig :=
  { apiKeys := ["key"], models := ["m1", "m2", "m3"], maxRetries := 2
    retryDelay := 5, rateLimitDelay := 3, timeout := 60000 }

/-- Witness network for C3: request `n` always fails with HTTP 500 and
message `"e" ++ n`. -/
def envC3 : Nat → FetchOutcome :=
  fun n => .httpErr 500 ("e" ++ toString n)

/-- Witness for C3: with three models and `maxRetries = 2`, every tier
is attempted exactly twice and the final rejection carries the error of
request 5, the last attempt of the last model. -/
theorem generateContent_model_cascade_witness :
    (∀ model s, s.currentKeyIndex < cfgC3.apiKeys.length →
      (callWithRetry cfgC3 envC3 model s).1 =
        .error ⟨some 500, "e" ++ toString (s.reqCount + cfgC3.maxRetries - 1)⟩ ∧
      (callWithRetry cfgC3 envC3 model s).2.reqCount =
        s.reqCount + cfgC3.maxRetries) ∧
    (generateContent cfgC3 envC3 0 ⟨0, 0, []⟩).1 =
      .error ⟨some 500,
        "e" ++ toString (cfgC3.models.length * cfgC3.maxRetries - 1)⟩ ∧
    (generateContent cfgC3 envC3 0 ⟨0, 0, []⟩).2.reqCount =
      cfgC3.models.length * cfgC3.maxRetries :=
  generateContent_model_cascade cfgC3 envC3 (fun _ => 500)
    (fun n => "e" ++ toString n) (fun _ => rfl)
    (fun _ => by norm_num) (by simp [cfgC3]) (by simp [cfgC3]) (by simp [cfgC3])

/-! ## Theorems: timeout classification (claim C4) -/

/-- Helper: a timed-out call returns the 408 timeout error after
exactly one request, with no backoff sleep and no key change —
`callWithRetry` treats 408 as a non-retryable client error. -/
theorem callWithRetry_timeout_aux (cfg : ClientConfig)
    (env : Nat → FetchOutcome) (henv : ∀ n, env n = .aborted)
    (hmr : 0 < cfg.maxRetries) (model : String) (s : ClientState)
    (hkey : s.currentKeyIndex < cfg.apiKeys.length) :
    callWithRetry cfg env model s =
      (.error ⟨some 408,
          "Request timeout after " ++ toString cfg.timeout ++ "ms"⟩,
        { s with reqCount := s.reqCount + 1 }) := by
  obtain ⟨n, hn⟩ : ∃ n, cfg.maxRetries = n + 1 :=
    ⟨cfg.maxRetries - 1, by omega⟩
  rw [callWithRetry, hn]
  exact callWithRetryGo_timeout_throw cfg env model 0 n none s
    cfg.apiKeys[s.currentKeyIndex] (List.getElem?_eq_getElem hkey)
    (henv s.reqCount)

/-- Helper: under an always-timing-out network, `generateContent`
makes exactly one (timed-out) attempt per remaining model tier —
escalating through the cascade on each 408 — and finally rejects with
the 408 timeout error, having slept no backoff at all. -/
theorem generateContent_timeout_aux (cfg : ClientConfig)
    (env : Nat → FetchOutcome) (henv : ∀ n, env n = .aborted)
    (hmr : 0 < cfg.maxRetries) :
    ∀ d mi s, cfg.models.length - mi = d + 1 → mi < cfg.models.length →
      s.currentKeyIndex < cfg.apiKeys.length →
      (generateContent cfg env mi s).1 =
        .error ⟨some 408,
          "Request timeout after " ++ toString cfg.timeout ++ "ms"⟩ ∧
      (generateContent cfg env mi s).2.reqCount =
        s.reqCount + (cfg.models.length - mi) ∧
      (generateContent cfg env mi s).2.waits = s.waits := by
  intro d
  induction d with
  | zero =>
    intro mi s hd hmi hkey
    have hm : cfg.models[mi]? = some cfg.models[mi] :=
      List.getElem?_eq_getElem hmi
    have hcall := callWithRetry_timeout_aux cfg env henv hmr
      cfg.models[mi] s hkey
    have hlast : ¬ (mi < cfg.models.length - 1) := by omega
    rw [generateContent, hm]
    simp only [hcall, hlast, dite_false]
    refine ⟨trivial, ?_, trivial⟩
    dsimp only
    omega
  | succ d ih =>
    intro mi s hd hmi hkey
    have hm : cfg.models[mi]? = some cfg.models[mi] :=
      List.getElem?_eq_getElem hmi
    have hcall := callWithRetry_timeout_aux cfg env henv hmr
      cfg.models[mi] s hkey
    have hlt : mi < cfg.models.length - 1 := by omega
    rw [generateContent, hm]
    simp only [hcall, hlt, dite_true]
    have hrec := ih (mi + 1) { s with reqCount := s.reqCount + 1 }
      (by omega) (by omega) hkey
    refine ⟨hrec.1, ?_, hrec.2.2⟩
    rw [hrec.2.1]
    dsimp only
    omega

/-- C4 counterexample: the claim says a timed-out call is a Transient
error, retried per the backoff schedule on the same model up to
`maxRetries` attempts before escalating.  With `maxRetries = 3` and a
network whose every request times out, `callWithRetry` instead makes
exactly one request — not `maxRetries` — and records no backoff sleep
before giving the model up. -/
theorem callWithRetry_timeout_not_retried :
    (callWithRetry
        { apiKeys := ["key"], models := ["m1", "m2"], maxRetries := 3
          retryDelay := 5, rateLimitDelay := 3, timeout := 60000 }
        (fun _ => .aborted) "m1" ⟨0, 0, []⟩).2.reqCount = 1 ∧
    (callWithRetry
        { apiKeys := ["key"], models := ["m1", "m2"], maxRetries := 3
          retryDelay := 5, rateLimitDelay := 3, timeout := 60000 }
        (fun _ => .aborted) "m1" ⟨0, 0, []⟩).2.waits = [] ∧
    ¬ ((callWithRetry
        { apiKeys := ["key"], models := ["m1", "m2"], maxRetries := 3
          retryDelay := 5, rateLimitDelay := 3, timeout := 60000 }
        (fun _ => .aborted) "m1" ⟨0, 0, []⟩).2.reqCount = 3) :=
  ⟨rfl, rfl, by decide⟩

/-- C4 (amended): a request that exceeds the per-call timeout yields an
error with status 408 ("Request timeout after …ms"), and `callWithRetry`
treats 408 as a non-retryable client error: the timed-out batch is
*not* retried on the same model — the error is rethrown after the
single attempt with no backoff sleep — and `generateContent` then
escalates straight through the model cascade, one timed-out attempt per
tier, finally rejecting with the 408 timeout error. -/
theorem timeout_is_client_error (cfg : ClientConfig)
    (env : Nat → FetchOutcome) (henv : ∀ n, env n = .aborted)
    (hmr : 0 < cfg.maxRetries) :
    (∀ model s, s.currentKeyIndex < cfg.apiKeys.length →
      callWithRetry cfg env model s =
        (.error ⟨some 408,
            "Request timeout after " ++ toString cfg.timeout ++ "ms"⟩,
          { s with reqCount := s.reqCount + 1 })) ∧
    (∀ mi s, mi < cfg.models.length →
      s.currentKeyIndex < cfg.apiKeys.length →
      (generateContent cfg env mi s).1 =
        .error ⟨some 408,
          "Request timeout after " ++ toString cfg.timeout ++ "ms"⟩ ∧
      (generateContent cfg env mi s).2.reqCount =
        s.reqCount + (cfg.models.length - mi) ∧
      (generateContent cfg env mi s).2.waits = s.waits) := by
  refine ⟨fun model s hkey => callWithRetry_timeout_aux cfg env henv hmr
    model s hkey, fun mi s hmi hkey => ?_⟩
  exact generateContent_timeout_aux cfg env henv hmr
    (cfg.models.length - mi - 1) mi s (by omega) hmi hkey

/-- Witness for C4: a two-model configuration whose network always
times out. -/
theorem timeout_is_client_error_witness :
    (∀ model s, s.currentKeyIndex <
        (ClientConfig.mk ["key"] ["m1", "m2"] 3 5 3 60000).apiKeys.length →
      callWithRetry (ClientConfig.mk ["key"] ["m1", "m2"] 3 5 3 60000)
          (fun _ => .aborted) model s =
        (.error ⟨some 408, "Request timeout after " ++ toString 60000 ++ "ms"⟩,
          { s with reqCount := s.reqCount + 1 })) ∧
    (∀ mi s, mi < (ClientConfig.mk ["key"] ["m1", "m2"] 3 5 3 60000).models.length →
      s.currentKeyIndex <
        (ClientConfig.mk ["key"] ["m1", "m2"] 3 5 3 60000).apiKeys.length →
      (generateContent (ClientConfig.mk ["key"] ["m1", "m2"] 3 5 3 60000)
          (fun _ => .aborted) mi s).1 =
        .error ⟨some 408, "Request timeout after " ++ toString 60000 ++ "ms"⟩ ∧
      (generateContent (ClientConfig.mk ["key"] ["m1", "m2"] 3 5 3 60000)
          (fun _ => .aborted) mi s).2.reqCount =
        s.reqCount +
          ((ClientConfig.mk ["key"] ["m1", "m2"] 3 5 3 60000).models.length - mi) ∧
      (generateContent (ClientConfig.mk ["key"] ["m1", "m2"] 3 5 3 60000)
          (fun _ => .aborted) mi s).2.waits = s.waits) :=
  timeout_is_client_error (ClientConfig.mk ["key"] ["m1", "m2"] 3 5 3 60000)
    (fun _ => .aborted) (fun _ => rfl) (by norm_num)

/-! ## Theorems: configuration failures (claim C5) -/

/-- The exponential backoff sleeps `d * 2^(retry + j)` for
`j < count`, as recorded by `callWithRetry`'s generic branch. -/
def backoffWaits (d retry count : Nat) : List Nat :=
  (List.range count).map (fun j => d * 2 ^ (retry + j))

/-- Peeling one sleep off the front of a backoff schedule. -/
theorem backoffWaits_succ (d retry m : Nat) :
    backoffWaits d retry (m + 1) =
      d * 2 ^ retry :: backoffWaits d (retry + 1) m := by
  unfold backoffWaits
  rw [List.range_succ_eq_map, List.map_cons, List.map_map]
  refine congrArg₂ _ (by rw [Nat.add_zero]) ?_
  refine List.map_congr_left (fun j _ => ?_)
  simp only [Function.comp]
  exact congrArg _ (congrArg _ (by omega))

/-- Helper: with an empty key list, every loop iteration throws the
no-status `'No API key available'` error before any fetch, which lands
in the generic retry branch; entered at loop index `retry` with
`retry + fuel = maxRetries`, the loop runs all `fuel` remaining
iterations, sleeping the exponential backoff on each but the last, and
finally rethrows the no-key error.  No request is ever issued. -/
theorem callWithRetryGo_nokey_all (cfg : ClientConfig)
    (env : Nat → FetchOutcome) (model : String)
    (hkeys : cfg.apiKeys = []) :
    ∀ fuel retry le s, retry + fuel = cfg.maxRetries → 0 < fuel →
      callWithRetryGo cfg env model retry fuel le s =
        (.error ⟨none, "No API key available"⟩,
          { s with waits :=
              s.waits ++ backoffWaits cfg.retryDelay retry (fuel - 1) }) := by
  intro fuel
  induction fuel with
  | zero => omega
  | succ n ih =>
    intro retry le s hsum _
    have hk : cfg.apiKeys[s.currentKeyIndex]? = none := by
      rw [hkeys]
      simp
    rw [callWithRetryGo_nokey_step cfg env model retry n le s hk]
    rcases Nat.eq_zero_or_pos n with hn | hn
    · subst hn
      have hlast : ¬ (retry < cfg.maxRetries - 1) := by omega
      rw [if_neg hlast]
      simp [callWithRetryGo, backoffWaits]
    · have hless : retry < cfg.maxRetries - 1 := by omega
      rw [if_pos hless]
      rw [ih (retry + 1) (some ⟨none, "No API key available"⟩)
        { s with waits := s.waits ++ [cfg.retryDelay * 2 ^ retry] }
        (by omega) hn]
      obtain ⟨m, hm⟩ : ∃ m, n = m + 1 := ⟨n - 1, by omega⟩
      subst hm
      simp only [Nat.add_sub_cancel, backoffWaits_succ]
      simp

/-- Helper: `callWithRetry` with an empty key list runs the whole
backoff loop (`maxRetries - 1` sleeps), issues no request, and rejects
with the no-key error. -/
theorem callWithRetry_nokey (cfg : ClientConfig)
    (env : Nat → FetchOutcome) (model : String) (s : ClientState)
    (hkeys : cfg.apiKeys = []) (hmr : 0 < cfg.maxRetries) :
    callWithRetry cfg env model s =
      (.error ⟨none, "No API key available"⟩,
        { s with waits :=
            s.waits ++ backoffWaits cfg.retryDelay 0 (cfg.maxRetries - 1) }) := by
  rw [callWithRetry]
  exact callWithRetryGo_nokey_all cfg env model hkeys
    cfg.maxRetries 0 none s (by omega) hmr

/-- Helper: with an empty key list, `generateContent` still walks the
whole model cascade — each tier running the full no-key retry loop —
and finally rejects with the no-key error, with zero requests issued
and `maxRetries - 1` backoff sleeps recorded per tier. -/
theorem generateContent_nokey_aux (cfg : ClientConfig)
    (env : Nat → FetchOutcome) (hkeys : cfg.apiKeys = [])
    (hmr : 0 < cfg.maxRetries) :
    ∀ d mi s, cfg.models.length - mi = d + 1 → mi < cfg.models.length →
      (generateContent cfg env mi s).1 =
        .error ⟨none, "No API key available"⟩ ∧
      (generateContent cfg env mi s).2.reqCount = s.reqCount ∧
      (generateContent cfg env mi s).2.waits = s.waits ++
        (List.replicate (cfg.models.length - mi)
          (backoffWaits cfg.retryDelay 0 (cfg.maxRetries - 1))).flatten := by
  intro d
  induction d with
  | zero =>
    intro mi s hd hmi
    have hm : cfg.models[mi]? = some cfg.models[mi] :=
      List.getElem?_eq_getElem hmi
    have hcall := callWithRetry_nokey cfg env cfg.models[mi] s hkeys hmr
    have hlast : ¬ (mi < cfg.models.length - 1) := by omega
    rw [generateContent, hm]
    simp only [hcall, hlast, dite_false]
    rw [hd]
    simp

  | succ d ih =>
    intro mi s hd hmi
    have hm : cfg.models[mi]? = some cfg.models[mi] :=
      List.getElem?_eq_getElem hmi
    have hcall := callWithRetry_nokey cfg env cfg.models[mi] s hkeys hmr
    have hlt : mi < cfg.models.length - 1 := by omega
    rw [generateContent, hm]
    simp only [hcall, hlt, dite_true]
    have hrec := ih (mi + 1)
      { s with waits :=
          s.waits ++ backoffWaits cfg.retryDelay 0 (cfg.maxRetries - 1) }
      (by omega) (by omega)
    refine ⟨hrec.1, hrec.2.1, ?_⟩
    rw [hrec.2.2]
    have hrep : cfg.models.length - mi = (cfg.models.length - (mi + 1)) + 1 := by
      omega
    rw [hrep, List.replicate_succ]
    simp [List.append_assoc]

/-- C5 counterexample: the claim says that with no credential the call
rejects at once, without entering the retry/backoff loop and without
cascading through further model tiers.  With an empty key list, two
models, `maxRetries = 3` and `retryDelay = 2`, `generateContent`
instead runs the full backoff loop on both tiers: it records the four
backoff sleeps `[2, 4, 2, 4]` (two per tier) before finally rejecting
with the no-key error. -/
theorem nokey_not_immediate :
    (generateContent (ClientConfig.mk [] ["a", "b"] 3 2 7 1)
        (fun _ => .httpOk "x") 0 ⟨0, 0, []⟩).1 =
      .error ⟨none, "No API key available"⟩ ∧
    (generateContent (ClientConfig.mk [] ["a", "b"] 3 2 7 1)
        (fun _ => .httpOk "x") 0 ⟨0, 0, []⟩).2.waits = [2, 4, 2, 4] ∧
    ¬ ((generateContent (ClientConfig.mk [] ["a", "b"] 3 2 7 1)
        (fun _ => .httpOk "x") 0 ⟨0, 0, []⟩).2.waits = []) := by
  have h := generateContent_nokey_aux (ClientConfig.mk [] ["a", "b"] 3 2 7 1)
    (fun _ => .httpOk "x") rfl (by norm_num) 1 0 ⟨0, 0, []⟩
    (by norm_num) (by norm_num)
  have hw : (generateContent (ClientConfig.mk [] ["a", "b"] 3 2 7 1)
      (fun _ => .httpOk "x") 0 ⟨0, 0, []⟩).2.waits = [2, 4, 2, 4] := by
    rw [h.2.2]
    decide
  refine ⟨h.1, hw, ?_⟩
  rw [hw]
  simp

/-- C5 (amended): if no model is available at the requested index the
call does reject at once, with no attempt, no sleep and no state
change.  If no credential is available, however, the no-key error
(which carries no status) is retried through the full backoff loop —
`maxRetries` iterations per model with `maxRetries - 1` exponential
backoff sleeps, though zero network requests — and `generateContent`
still cascades through every remaining model tier before finally
rejecting with `'No API key available'`. -/
theorem configuration_failures (cfg : ClientConfig)
    (env : Nat → FetchOutcome) (hkeys : cfg.apiKeys = [])
    (hmr : 0 < cfg.maxRetries) :
    (∀ mi s, cfg.models[mi]? = none →
      generateContent cfg env mi s =
        (.error ⟨none, "No model available"⟩, s)) ∧
    (∀ model s,
      callWithRetry cfg env model s =
        (.error ⟨none, "No API key available"⟩,
          { s with waits :=
              s.waits ++ backoffWaits cfg.retryDelay 0 (cfg.maxRetries - 1) })) ∧
    (∀ mi s, mi < cfg.models.length →
      (generateContent cfg env mi s).1 =
        .error ⟨none, "No API key available"⟩ ∧
      (generateContent cfg env mi s).2.reqCount = s.reqCount ∧
      (generateContent cfg env mi s).2.waits = s.waits ++
        (List.replicate (cfg.models.length - mi)
          (backoffWaits cfg.retryDelay 0 (cfg.maxRetries - 1))).flatten) := by
  refine ⟨?_, ?_, ?_⟩
  · intro mi s hm
    rw [generateContent, hm]
  · intro model s
    exact callWithRetry_nokey cfg env model s hkeys hmr
  · intro mi s hmi
    exact generateContent_nokey_aux cfg env hkeys hmr
      (cfg.models.length - mi - 1) mi s (by omega) hmi

/-- Witness for C5: the empty-key, two-model configuration of the
counterexample. -/
theorem configuration_failures_witness :
    (∀ mi s, (ClientConfig.mk [] ["a", "b"] 3 2 7 1).models[mi]? = none →
      generateContent (ClientConfig.mk [] ["a", "b"] 3 2 7 1)
          (fun _ => .httpOk "x") mi s =
        (.error ⟨none, "No model available"⟩, s)) ∧
    (∀ model s,
      callWithRetry (ClientConfig.mk [] ["a", "b"] 3 2 7 1)
          (fun _ => .httpOk "x") model s =
        (.error ⟨none, "No API key available"⟩,
          { s with waits := s.waits ++ backoffWaits 2 0 2 })) ∧
    (∀ mi s, mi < (ClientConfig.mk [] ["a", "b"] 3 2 7 1).models.length →
      (generateContent (ClientConfig.mk [] ["a", "b"] 3 2 7 1)
          (fun _ => .httpOk "x") mi s).1 =
        .error ⟨none, "No API key available"⟩ ∧
      (generateContent (ClientConfig.mk [] ["a", "b"] 3 2 7 1)
          (fun _ => .httpOk "x") mi s).2.reqCount = s.reqCount ∧
      (generateContent (ClientConfig.mk [] ["a", "b"] 3 2 7 1)
          (fun _ => .httpOk "x") mi s).2.waits = s.waits ++
        (List.replicate ((ClientConfig.mk [] ["a", "b"] 3 2 7 1).models.length - mi)
          (backoffWaits 2 0 2)).flatten) :=
  configuration_failures (ClientConfig.mk [] ["a", "b"] 3 2 7 1)
    (fun _ => .httpOk "x") rfl (by norm_num)

/-! ## Theorems: cooperative cancellation (claim C7) -/

/-- A batch id is recorded in a run's outcome maps. -/
def recordedIn (id : String) (s : BPState) : Prop :=
  mapHas s.completed id = true ∨ mapHas s.failed id = true

/-- `setFn` at the updated index. -/
theorem setFn_eq {α : Type} (f : Nat → α) (i : Nat) (a : α) :
    setFn f i a i = a := by
  simp [setFn]

/-- `setFn` away from the updated index. -/
theorem setFn_ne {α : Type} (f : Nat → α) (i j : Nat) (a : α)
    (h : j ≠ i) : setFn f i a j = f j := by
  simp [setFn, h]

/-- `Map.set` keeps every key that was present. -/
theorem mapHas_mapSet_mono {V : Type} (m : List (String × V))
    (k k' : String) (v : V) (h : mapHas m k = true) :
    mapHas (mapSet m k' v) k = true := by
  induction m with
  | nil => simp [mapHas] at h
  | cons p rest ih =>
    rcases p with ⟨pk, pv⟩
    by_cases hp : pk = k'
    · subst hp
      simp only [mapSet, if_pos rfl]
      simp only [mapHas, List.any_cons] at h ⊢
      exact h
    · simp only [mapSet, if_neg hp]
      simp only [mapHas, List.any_cons] at h ⊢
      rcases Bool.or_eq_true_iff.mp h with h1 | h2
      · exact Bool.or_eq_true_iff.mpr (Or.inl h1)
      · exact Bool.or_eq_true_iff.mpr (Or.inr (ih h2))

/-- `Map.set` makes its own key present. -/
theorem mapHas_mapSet_self {V : Type} (m : List (String × V))
    (k : String) (v : V) : mapHas (mapSet m k v) k = true := by
  induction m with
  | nil => simp [mapSet, mapHas]
  | cons p rest ih =>
    rcases p with ⟨pk, pv⟩
    by_cases hp : pk = k
    · subst hp
      simp [mapSet, mapHas]
    · simp only [mapSet, if_neg hp]
      simp only [mapHas, List.any_cons]
      exact Bool.or_eq_true_iff.mpr (Or.inr ih)

/-- A key present after `Map.set` was present before or is the set key. -/
theorem mapHas_mapSet_inv {V : Type} (m : List (String × V))
    (k k' : String) (v : V) (h : mapHas (mapSet m k' v) k = true) :
    mapHas m k = true ∨ k = k' := by
  induction m with
  | nil =>
    simp [mapSet, mapHas] at h
    exact Or.inr (by simp [h])
  | cons p rest ih =>
    rcases p with ⟨pk, pv⟩
    by_cases hp : pk = k'
    · subst hp
      simp only [mapSet, if_pos rfl, mapHas, List.any_cons] at h ⊢
      rcases Bool.or_eq_true_iff.mp h with h1 | h2
      · exact Or.inr (by simpa [eq_comm] using h1)
      · exact Or.inl (Bool.or_eq_true_iff.mpr (Or.inr h2))
    · simp only [mapSet, if_neg hp, mapHas, List.any_cons] at h ⊢
      rcases Bool.or_eq_true_iff.mp h with h1 | h2
      · exact Or.inl (Bool.or_eq_true_iff.mpr (Or.inl h1))
      · rcases ih h2 with h3 | h3
        · exact Or.inl (Bool.or_eq_true_iff.mpr (Or.inr h3))
        · exact Or.inr h3

/-- A `setFn` update with a non-in-flight status cannot create an
in-flight observation. -/
theorem setFn_inflight_inv {f : Nat → WStatus} {j : Nat} {w : WStatus}
    (hnotin : ∀ b2, w ≠ .inFlight b2) :
    ∀ i b, setFn f j w i = .inFlight b → f i = .inFlight b := by
  intro i b h
  unfold setFn at h
  split at h
  · exact absurd h (hnotin b)
  · exact h

/-- A `setFn` update elsewhere keeps an in-flight observation. -/
theorem setFn_keep {f : Nat → WStatus} (j : Nat) (w : WStatus) {i : Nat}
    {b : PBatch} (hw : f i = .inFlight b) (hne : i ≠ j) :
    setFn f j w i = .inFlight b := by
  rw [setFn_ne _ _ _ _ hne]
  exact hw

/-- Once `cancel()` has set the flag, no step clears it (only a fresh
`processBatches` invocation does). -/
theorem step_cancelled_mono {tm : Bool} {s s' : BPState}
    (h : Step tm s s') (hc : s.cancelled = true) : s'.cancelled = true := by
  cases h <;> simp_all [resolveOkTarget, resolveErrTarget]

/-- After cancellation no step changes the queue: the two dequeue
steps require `cancelled = false`. -/
theorem step_queue_frozen {tm : Bool} {s s' : BPState}
    (h : Step tm s s') (hc : s.cancelled = true) : s'.queue = s.queue := by
  cases h <;> simp_all [resolveOkTarget, resolveErrTarget]

/-- After cancellation no worker newly enters `inFlight`: a worker
observed in flight afterwards was already in flight on that batch. -/
theorem step_no_new_inflight {tm : Bool} {s s' : BPState}
    (h : Step tm s s') (hc : s.cancelled = true) :
    ∀ i b, s'.workers i = .inFlight b → s.workers i = .inFlight b := by
  intro i b hw
  cases h with
  | cancel => exact hw
  | pause => exact hw
  | resume => exact hw
  | finishAtTop j hj hcond =>
    dsimp only at hw
    exact setFn_inflight_inv (fun b2 => by simp) i b hw
  | pauseAtTop j hj hq hnc hp =>
    rw [hc] at hnc
    cases hnc
  | dequeueAtTop j b2 rest hj hq hnc hp =>
    rw [hc] at hnc
    cases hnc
  | pausedSleep j hj hnc hp => exact hw
  | cancelledInPause j hj hcj =>
    dsimp only at hw
    exact setFn_inflight_inv (fun b2 => by simp) i b hw
  | resumedEmpty j hj hnc hp hq =>
    rw [hc] at hnc
    cases hnc
  | resumedDequeue j b2 rest hj hnc hp hq =>
    rw [hc] at hnc
    cases hnc
  | resolveOk j b2 r hj =>
    simp only [resolveOkTarget] at hw
    refine setFn_inflight_inv ?_ i b hw
    intro b3
    split <;> simp
  | resolveErr j b2 m hj =>
    simp only [resolveErrTarget] at hw
    refine setFn_inflight_inv ?_ i b hw
    intro b3
    split <;> simp

/-- Outcome records persist across every step (no step deletes from
`completed` or `failed`). -/
theorem step_recorded_mono {tm : Bool} {s s' : BPState}
    (h : Step tm s s') (id : String) (hr : recordedIn id s) :
    recordedIn id s' := by
  cases h with
  | resolveOk j b2 r hj =>
    simp only [recordedIn, resolveOkTarget] at hr ⊢
    rcases hr with h1 | h2
    · exact Or.inl (mapHas_mapSet_mono _ _ _ _ h1)
    · exact Or.inr h2
  | resolveErr j b2 m hj =>
    simp only [recordedIn, resolveErrTarget] at hr ⊢
    rcases hr with h1 | h2
    · exact Or.inl h1
    · exact Or.inr (mapHas_mapSet_mono _ _ _ _ h2)
  | _ => simpa [recordedIn] using hr

/-- A key newly recorded by a step belongs to a batch that was in
flight when the step ran. -/
theorem step_recorded_new {tm : Bool} {s s' : BPState}
    (h : Step tm s s') (id : String) (hr : recordedIn id s')
    (hnot : ¬ recordedIn id s) :
    ∃ j b2, s.workers j = .inFlight b2 ∧ b2.id = id := by
  cases h with
  | resolveOk j b2 r hj =>
    simp only [recordedIn, resolveOkTarget] at hr
    rcases hr with h1 | h2
    · rcases mapHas_mapSet_inv _ _ _ _ h1 with h3 | h3
      · exact absurd (Or.inl h3) hnot
      · exact ⟨j, b2, hj, h3.symm⟩
    · exact absurd (Or.inr h2) hnot
  | resolveErr j b2 m hj =>
    simp only [recordedIn, resolveErrTarget] at hr
    rcases hr with h1 | h2
    · exact absurd (Or.inl h1) hnot
    · rcases mapHas_mapSet_inv _ _ _ _ h2 with h3 | h3
      · exact absurd (Or.inr h3) hnot
      · exact ⟨j, b2, hj, h3.symm⟩
  | _ => exact absurd (by simpa [recordedIn] using hr) hnot

/-- A worker that leaves `inFlight` in one step has recorded its batch
into `completed` or `failed` by that step. -/
theorem step_inflight_resolves {tm : Bool} {s s' : BPState}
    (h : Step tm s s') (i : Nat) (b : PBatch)
    (hw : s.workers i = .inFlight b) :
    s'.workers i = .inFlight b ∨ recordedIn b.id s' := by
  cases h with
  | cancel => exact Or.inl hw
  | pause => exact Or.inl hw
  | resume => exact Or.inl hw
  | finishAtTop j hj hcond =>
    left
    dsimp only
    by_cases hij : i = j
    · rw [hij] at hw
      rw [hw] at hj
      cases hj
    · exact setFn_keep _ _ hw hij
  | pauseAtTop j hj hq hnc hp =>
    left
    dsimp only
    by_cases hij : i = j
    · rw [hij] at hw
      rw [hw] at hj
      cases hj
    · exact setFn_keep _ _ hw hij
  | dequeueAtTop j b2 rest hj hq hnc hp =>
    left
    dsimp only
    by_cases hij : i = j
    · rw [hij] at hw
      rw [hw] at hj
      cases hj
    · exact setFn_keep _ _ hw hij
  | pausedSleep j hj hnc hp => exact Or.inl hw
  | cancelledInPause j hj hcj =>
    left
    dsimp only
    by_cases hij : i = j
    · rw [hij] at hw
      rw [hw] at hj
      cases hj
    · exact setFn_keep _ _ hw hij
  | resumedEmpty j hj hnc hp hq =>
    left
    dsimp only
    by_cases hij : i = j
    · rw [hij] at hw
      rw [hw] at hj
      cases hj
    · exact setFn_keep _ _ hw hij
  | resumedDequeue j b2 rest hj hnc hp hq =>
    left
    dsimp only
    by_cases hij : i = j
    · rw [hij] at hw
      rw [hw] at hj
      cases hj
    · exact setFn_keep _ _ hw hij
  | resolveOk j b2 r hj =>
    by_cases hij : i = j
    · rw [hij] at hw
      rw [hw] at hj
      cases hj
      right
      exact Or.inl (by
        simp only [resolveOkTarget]
        exact mapHas_mapSet_self _ _ _)
    · left
      simp only [resolveOkTarget]
      exact setFn_keep _ _ hw hij
  | resolveErr j b2 m hj =>
    by_cases hij : i = j
    · rw [hij] at hw
      rw [hw] at hj
      cases hj
      right
      exact Or.inr (by
        simp only [resolveErrTarget]
        exact mapHas_mapSet_self _ _ _)
    · left
      simp only [resolveErrTarget]
      exact setFn_keep _ _ hw hij

/-- C7: cancellation is cooperative and exact.  For every reachable
state `s'` after a state `s` in which `cancel()` has been observed
(`s.cancelled = true`): the flag stays set; the queue never changes
(so no worker dequeues any new batch, and every batch still queued at
cancellation time remains queued); no worker newly enters `inFlight`;
every batch in flight at cancellation either is still in flight or has
been recorded into the completed or failed map; a batch still in
flight is always allowed to resolve — its resolution step is enabled
regardless of the flag and records it; and a batch that was queued and
unrecorded at cancellation time, with no in-flight worker holding its
id, is never recorded (remains unprocessed). -/
theorem cancel_is_cooperative (tm : Bool) (s s' : BPState) (i : Nat)
    (b : PBatch) (r : String) (hstar : StepStar tm s s')
    (hc : s.cancelled = true) :
    s'.cancelled = true ∧
    s'.queue = s.queue ∧
    (∀ j b2, s'.workers j = .inFlight b2 → s.workers j = .inFlight b2) ∧
    (s.workers i = .inFlight b →
      s'.workers i = .inFlight b ∨ recordedIn b.id s') ∧
    (s'.workers i = .inFlight b →
      Step tm s' (resolveOkTarget tm s' i b r) ∧
      recordedIn b.id (resolveOkTarget tm s' i b r)) ∧
    (b ∈ s.queue → ¬ recordedIn b.id s →
      (∀ j b2, s.workers j = .inFlight b2 → b2.id ≠ b.id) →
      b ∈ s'.queue ∧ ¬ recordedIn b.id s') := by
  induction hstar with
  | refl =>
    refine ⟨hc, rfl, fun j b2 h => h, fun h => Or.inl h, fun hw => ?_,
      fun hq hr _ => ⟨hq, hr⟩⟩
    refine ⟨Step.resolveOk s i b r hw, Or.inl ?_⟩
    simp only [resolveOkTarget]
    exact mapHas_mapSet_self _ _ _
  | @tail t u hst hstep ih =>
    have hct := ih.1
    refine ⟨step_cancelled_mono hstep hct, ?_, ?_, ?_, ?_, ?_⟩
    · rw [step_queue_frozen hstep hct]
      exact ih.2.1
    · intro j b2 hw
      exact ih.2.2.1 j b2 (step_no_new_inflight hstep hct j b2 hw)
    · intro hw
      rcases ih.2.2.2.1 hw with h1 | h2
      · exact step_inflight_resolves hstep i b h1
      · exact Or.inr (step_recorded_mono hstep b.id h2)
    · intro hw
      refine ⟨Step.resolveOk _ i b r hw, Or.inl ?_⟩
      simp only [resolveOkTarget]
      exact mapHas_mapSet_self _ _ _
    · intro hq hr hnofly
      have hmid := ih.2.2.2.2.2 hq hr hnofly
      refine ⟨?_, ?_⟩
      · rw [step_queue_frozen hstep hct]
        exact hmid.1
      · intro habs
        by_cases hrec : recordedIn b.id t
        · exact hmid.2 hrec
        · rcases step_recorded_new hstep b.id habs hrec with ⟨j, b2, hjw, hid⟩
          exact hnofly j b2 (ih.2.2.1 j b2 hjw) hid

/-- Witness batch for C7, in flight at cancellation time. -/
def bFly : PBatch := ⟨"id0", 1, "text0"⟩

/-- Witness batch for C7, still queued at cancellation time. -/
def bQueued : PBatch := ⟨"id1", 2, "text1"⟩

/-- Witness pre-state for C7: cancelled, worker 0 in flight on `bFly`,
`bQueued` still in the queue, nothing recorded. -/
def sCancelled : BPState :=
  { queue := [bQueued]
    processing := [("id0", bFly)]
    completed := []
    failed := []
    paused := false
    cancelled := true
    workers := fun i => if i = 0 then .inFlight bFly else .done }

/-- Witness for C7: one resolution step from `sCancelled` — the
in-flight batch is allowed to finish and is recorded, while the queue
and the queued batch stay untouched. -/
theorem cancel_is_cooperative_witness :
    (resolveOkTarget false sCancelled 0 bFly "out").cancelled = true ∧
    (resolveOkTarget false sCancelled 0 bFly "out").queue =
      sCancelled.queue ∧
    (∀ j b2, (resolveOkTarget false sCancelled 0 bFly "out").workers j =
        .inFlight b2 → sCancelled.workers j = .inFlight b2) ∧
    (sCancelled.workers 0 = .inFlight bFly →
      (resolveOkTarget false sCancelled 0 bFly "out").workers 0 =
        .inFlight bFly ∨
      recordedIn bFly.id (resolveOkTarget false sCancelled 0 bFly "out")) ∧
    ((resolveOkTarget false sCancelled 0 bFly "out").workers 0 =
        .inFlight bFly →
      Step false (resolveOkTarget false sCancelled 0 bFly "out")
        (resolveOkTarget false
          (resolveOkTarget false sCancelled 0 bFly "out") 0 bFly "out") ∧
      recordedIn bFly.id
        (resolveOkTarget false
          (resolveOkTarget false sCancelled 0 bFly "out") 0 bFly "out")) ∧
    (bQueued ∈ sCancelled.queue → ¬ recordedIn bQueued.id sCancelled →
      (∀ j b2, sCancelled.workers j = .inFlight b2 →
        b2.id ≠ bQueued.id) →
      bQueued ∈ (resolveOkTarget false sCancelled 0 bFly "out").queue ∧
      ¬ recordedIn bQueued.id (resolveOkTarget false sCancelled 0 bFly "out")) := by
  have h1 := cancel_is_cooperative false sCancelled
    (resolveOkTarget false sCancelled 0 bFly "out") 0 bFly "out"
    (Relation.ReflTransGen.single (Step.resolveOk sCancelled 0 bFly "out" rfl))
    rfl
  have h2 := cancel_is_cooperative false sCancelled
    (resolveOkTarget false sCancelled 0 bFly "out") 0 bQueued "out"
    (Relation.ReflTransGen.single (Step.resolveOk sCancelled 0 bFly "out" rfl))
    rfl
  exact ⟨h1.1, h1.2.1, h1.2.2.1, h1.2.2.2.1, h1.2.2.2.2.1, h2.2.2.2.2.2⟩

/-! ## Theorems: result assembly (claim C8) -/

/-- Specification-side description of the assembled outputs: the
successful batches' transformed texts, in original submission order. -/
def successfulOutputs (outcome : PBatch → Except String String) :
    List PBatch → List String
  | [] => []
  | b :: rest =>
    match outcome b with
    | .ok t => t :: successfulOutputs outcome rest
    | .error _ => successfulOutputs outcome rest

/-- Specification-side description of the failure report: one entry
per failed batch, in original submission order, starting at 0-based
position `i`. -/
def failedReports (outcome : PBatch → Except String String) :
    List PBatch → Nat → List BatchError
  | [], _ => []
  | b :: rest, i =>
    match outcome b with
    | .ok _ => failedReports outcome rest (i + 1)
    | .error m => ⟨b.id, i + 1, m, b.text⟩ :: failedReports outcome rest (i + 1)

/-- Peeling the head off an enumeration of batch numbers. -/
theorem range_map_add_one (i n : Nat) :
    (List.range (n + 1)).map (fun j => i + j + 1) =
      (i + 1) :: (List.range n).map (fun j => (i + 1) + j + 1) := by
  rw [List.range_succ_eq_map, List.map_cons, List.map_map]
  refine congrArg₂ _ (by omega) ?_
  refine List.map_congr_left fun j _ => ?_
  simp only [Function.comp]
  omega

/-- The `process` loop, characterized: the success-filtered transformed
texts are exactly the successful outputs in submission order, the
errors array is exactly the failure report in submission order, and
the results array carries the batch numbers `i+1, i+2, …` in order. -/
theorem processGo_characterization (outcome : PBatch → Except String String) :
    ∀ batches i,
      ((processGo outcome batches i).1.filter (fun r => r.success)).map
          (fun r => r.transformedText.getD "") =
        successfulOutputs outcome batches ∧
      (processGo outcome batches i).2 = failedReports outcome batches i ∧
      (processGo outcome batches i).1.map (fun r => r.batchNumber) =
        (List.range batches.length).map (fun j => i + j + 1) := by
  intro batches
  induction batches with
  | nil =>
    intro i
    simp [processGo, successfulOutputs, failedReports]
  | cons b rest ih =>
    intro i
    have hr := ih (i + 1)
    rcases ho : outcome b with m | t
    · refine ⟨?_, ?_, ?_⟩
      · simp only [processGo, ho]
        simpa [List.filter, successfulOutputs, ho] using hr.1
      · simp only [processGo, ho, failedReports]
        simpa using hr.2.1
      · simp only [processGo, ho, List.length_cons, range_map_add_one,
          List.map_cons]
        simpa using hr.2.2
    · refine ⟨?_, ?_, ?_⟩
      · simp only [processGo, ho]
        simpa [List.filter, successfulOutputs, ho] using hr.1
      · simp only [processGo, ho, failedReports]
        simpa using hr.2.1
      · simp only [processGo, ho, List.length_cons, range_map_add_one,
          List.map_cons]
        simpa using hr.2.2

/-- C8: for every batch list and every outcome of the per-batch
transformations, the assembled text equals the successful batches'
outputs joined with the `"\n\n"` paragraph separator *in original
submission order*; batches without successful output are omitted from
the text but appear, in order, in the failure report; the result
records carry the submission batch numbers `1..n` in order; and the
stats count successes and failures.  The assembly is a function of the
submission order and the outcomes alone — completion timing does not
enter the model, because `process` awaits each batch in order and the
final combine reads the ordered `results` array, never a
completion-ordered structure. -/
theorem assembly_in_submission_order (outcome : PBatch → Except String String)
    (batches : List PBatch) :
    (processBatchList outcome batches).transformedText =
      String.intercalate "\n\n" (successfulOutputs outcome batches) ∧
    (processBatchList outcome batches).errors =
      failedReports outcome batches 0 ∧
    (processBatchList outcome batches).results.map (fun r => r.batchNumber) =
      (List.range batches.length).map (fun j => j + 1) ∧
    (processBatchList outcome batches).successfulBatches =
      (successfulOutputs outcome batches).length ∧
    (processBatchList outcome batches).failedBatches =
      (failedReports outcome batches 0).length := by
  have h := processGo_characterization outcome batches 0
  refine ⟨?_, ?_, ?_, ?_, ?_⟩
  · simp only [processBatchList, combineResults]
    rw [h.1]
  · simp only [processBatchList]
    exact h.2.1
  · simp only [processBatchList]
    rw [h.2.2]
    refine List.map_congr_left fun j _ => by omega
  · simp only [processBatchList]
    have hlen : (((processGo outcome batches 0).1.filter
        (fun r => r.success)).map (fun r => r.transformedText.getD "")).length =
        (successfulOutputs outcome batches).length := by rw [h.1]
    simpa using hlen
  · simp only [processBatchList]
    rw [h.2.1]

/-! ## Theorems: credential failover (claim C6) -/

/-- C6 counterexample: the claim says that on RateLimited *or*
ServerError with a backup credential available and the active
credential primary, the client proceeds to the next attempt immediately
with no backoff wait.  With two keys, `retryDelay = 7` and a first
attempt failing with HTTP 500 (backup available, active primary), the
loop does switch to the backup key but still sleeps the backoff: the
recorded waits are `[7]`, not `[]`. -/
theorem serverError_switch_still_waits :
    (ClientConfig.mk ["k1", "k2"] ["m"] 2 7 3 1).apiKeys.length = 2 ∧
    (fun n => if n = 0 then FetchOutcome.httpErr 500 "se"
      else FetchOutcome.httpOk "ok") 0 = FetchOutcome.httpErr 500 "se" ∧
    callWithRetryGo (ClientConfig.mk ["k1", "k2"] ["m"] 2 7 3 1)
        (fun n => if n = 0 then FetchOutcome.httpErr 500 "se"
          else FetchOutcome.httpOk "ok") "m" 0 2 none ⟨0, 0, []⟩ =
      callWithRetryGo (ClientConfig.mk ["k1", "k2"] ["m"] 2 7 3 1)
        (fun n => if n = 0 then FetchOutcome.httpErr 500 "se"
          else FetchOutcome.httpOk "ok") "m" 1 1 (some ⟨some 500, "se"⟩)
        ⟨1, 1, [7]⟩ ∧
    (callWithRetry (ClientConfig.mk ["k1", "k2"] ["m"] 2 7 3 1)
        (fun n => if n = 0 then FetchOutcome.httpErr 500 "se"
          else FetchOutcome.httpOk "ok") "m" ⟨0, 0, []⟩).2.waits = [7] ∧
    ¬ ((callWithRetry (ClientConfig.mk ["k1", "k2"] ["m"] 2 7 3 1)
        (fun n => if n = 0 then FetchOutcome.httpErr 500 "se"
          else FetchOutcome.httpOk "ok") "m" ⟨0, 0, []⟩).2.waits = []) :=
  ⟨rfl, rfl, rfl, rfl, by decide⟩

/-- C6 (amended): for an attempt failing with RateLimited (429) or
ServerError (5xx) while a backup credential exists and the active
credential is primary, the client switches the active credential to
backup before the next attempt in both cases; but it skips the backoff
wait only in the RateLimited case — on ServerError it still sleeps
`retryDelay * 2^attempt` before the next attempt. -/
theorem credential_failover_switch (cfg : ClientConfig)
    (env : Nat → FetchOutcome) (model : String) (retry fuel : Nat)
    (le : Option JsError) (s : ClientState) (k : String)
    (hk : cfg.apiKeys[s.currentKeyIndex]? = some k)
    (h0 : s.currentKeyIndex = 0) (h2 : 1 < cfg.apiKeys.length) :
    (∀ m, env s.reqCount = .httpErr 429 m →
      callWithRetryGo cfg env model retry (fuel + 1) le s =
        callWithRetryGo cfg env model (retry + 1) fuel (some ⟨some 429, m⟩)
          { s with currentKeyIndex := 1, reqCount := s.reqCount + 1 }) ∧
    (∀ stv m, env s.reqCount = .httpErr stv m → 500 ≤ stv → stv < 600 →
      callWithRetryGo cfg env model retry (fuel + 1) le s =
        callWithRetryGo cfg env model (retry + 1) fuel (some ⟨some stv, m⟩)
          { s with currentKeyIndex := 1, reqCount := s.reqCount + 1,
                   waits := s.waits ++ [cfg.retryDelay * 2 ^ retry] }) := by
  constructor
  · intro m he
    exact callWithRetryGo_429_switch_step cfg env model retry fuel le s k m
      hk he h0 h2
  · intro stv m he h5 h6
    rw [callWithRetryGo_5xx_step cfg env model retry fuel le s k stv m
      hk he h5 h6]
    simp [h0, h2]

/-- Witness for C6: two keys, active primary, at request index 0. -/
theorem credential_failover_switch_witness :
    (∀ m, (fun n => if n = 0 then FetchOutcome.httpErr 429 "r"
        else FetchOutcome.httpOk "ok") (0 : Nat) = .httpErr 429 m →
      callWithRetryGo (ClientConfig.mk ["k1", "k2"] ["m"] 2 7 3 1)
          (fun n => if n = 0 then FetchOutcome.httpErr 429 "r"
            else FetchOutcome.httpOk "ok") "m" 0 2 none ⟨0, 0, []⟩ =
        callWithRetryGo (ClientConfig.mk ["k1", "k2"] ["m"] 2 7 3 1)
          (fun n => if n = 0 then FetchOutcome.httpErr 429 "r"
            else FetchOutcome.httpOk "ok") "m" 1 1 (some ⟨some 429, m⟩)
          ⟨1, 1, []⟩) ∧
    (∀ stv m, (fun n => if n = 0 then FetchOutcome.httpErr 429 "r"
        else FetchOutcome.httpOk "ok") (0 : Nat) = .httpErr stv m →
      500 ≤ stv → stv < 600 →
      callWithRetryGo (ClientConfig.mk ["k1", "k2"] ["m"] 2 7 3 1)
          (fun n => if n = 0 then FetchOutcome.httpErr 429 "r"
            else FetchOutcome.httpOk "ok") "m" 0 2 none ⟨0, 0, []⟩ =
        callWithRetryGo (ClientConfig.mk ["k1", "k2"] ["m"] 2 7 3 1)
          (fun n => if n = 0 then FetchOutcome.httpErr 429 "r"
            else FetchOutcome.httpOk "ok") "m" 1 1 (some ⟨some stv, m⟩)
          ⟨1, 1, [7 * 2 ^ 0]⟩) :=
  credential_failover_switch (ClientConfig.mk ["k1", "k2"] ["m"] 2 7 3 1)
    (fun n => if n = 0 then FetchOutcome.httpErr 429 "r"
      else FetchOutcome.httpOk "ok") "m" 0 1 none ⟨0, 0, []⟩ "k1"
    rfl rfl (by norm_num)

/-! ## Theorems: rate limiter (claim C9) -/

/-- Two concurrent callers at the start of a run (both about to invoke
`applyRateLimit`), with `lastRequest = 0` at time `0`. -/
def rlStart : RLState :=
  { now := 0, lastRequest := 0
    workers := fun i => if i < 2 then .beforeRL else .finished 0 0 }

/-- The state reached after both callers read the same `lastRequest`,
sleep, wake together at time 1000, and both dispatch at time 1000. -/
def rlEnd : RLState :=
  { now := 1000, lastRequest := 0
    workers := setFn (setFn (setFn (setFn (setFn (setFn
      (fun i => if i < 2 then RLWorker.beforeRL else .finished 0 0)
      0 (.sleepingUntil 1000)) 1 (.sleepingUntil 1000))
      0 .readyToDispatch) 1 .readyToDispatch)
      0 (.awaitingResponse 1000)) 1 (.awaitingResponse 1000) }

/-- C9 counterexample: the claim says no two dispatches occur within
the minimum-interval window when multiple workers call concurrently.
With `minInterval = 1000`, two workers both observe `lastRequest = 0`
at time 0 (the limiter records nothing at dispatch — `lastRequest` is
written only when a response completes), both sleep until 1000, and
both dispatch at time 1000: two dispatches zero apart, inside the
1000ms window. -/
theorem rate_limiter_collision :
    RLStepStar 1000 rlStart rlEnd ∧
    rlEnd.workers 0 = .awaitingResponse 1000 ∧
    rlEnd.workers 1 = .awaitingResponse 1000 ∧
    1000 - 1000 < 1000 := by
  refine ⟨?_, rfl, rfl, by norm_num⟩
  have s1 : RLStep 1000 rlStart
      ⟨0, 0, setFn rlStart.workers 0 (.sleepingUntil 1000)⟩ :=
    RLStep.runRL rlStart 0 rfl
  have s2 : RLStep 1000 ⟨0, 0, setFn rlStart.workers 0 (.sleepingUntil 1000)⟩
      ⟨0, 0, setFn (setFn rlStart.workers 0 (.sleepingUntil 1000)) 1
        (.sleepingUntil 1000)⟩ :=
    RLStep.runRL _ 1 rfl
  have s3 : RLStep 1000
      ⟨0, 0, setFn (setFn rlStart.workers 0 (.sleepingUntil 1000)) 1
        (.sleepingUntil 1000)⟩
      ⟨1000, 0, setFn (setFn rlStart.workers 0 (.sleepingUntil 1000)) 1
        (.sleepingUntil 1000)⟩ :=
    RLStep.tick _ 1000 (by norm_num)
  have s4 : RLStep 1000
      ⟨1000, 0, setFn (setFn rlStart.workers 0 (.sleepingUntil 1000)) 1
        (.sleepingUntil 1000)⟩
      ⟨1000, 0, setFn (setFn (setFn rlStart.workers 0 (.sleepingUntil 1000)) 1
        (.sleepingUntil 1000)) 0 .readyToDispatch⟩ :=
    RLStep.wake _ 0 1000 rfl (by norm_num)
  have s5 : RLStep 1000
      ⟨1000, 0, setFn (setFn (setFn rlStart.workers 0 (.sleepingUntil 1000)) 1
        (.sleepingUntil 1000)) 0 .readyToDispatch⟩
      ⟨1000, 0, setFn (setFn (setFn (setFn rlStart.workers 0
        (.sleepingUntil 1000)) 1 (.sleepingUntil 1000)) 0 .readyToDispatch) 1
        .readyToDispatch⟩ :=
    RLStep.wake _ 1 1000 rfl (by norm_num)
  have s6 : RLStep 1000
      ⟨1000, 0, setFn (setFn (setFn (setFn rlStart.workers 0
        (.sleepingUntil 1000)) 1 (.sleepingUntil 1000)) 0 .readyToDispatch) 1
        .readyToDispatch⟩
      ⟨1000, 0, setFn (setFn (setFn (setFn (setFn rlStart.workers 0
        (.sleepingUntil 1000)) 1 (.sleepingUntil 1000)) 0 .readyToDispatch) 1
        .readyToDispatch) 0 (.awaitingResponse 1000)⟩ :=
    RLStep.dispatch _ 0 rfl
  have s7 : RLStep 1000
      ⟨1000, 0, setFn (setFn (setFn (setFn (setFn rlStart.workers 0
        (.sleepingUntil 1000)) 1 (.sleepingUntil 1000)) 0 .readyToDispatch) 1
        .readyToDispatch) 0 (.awaitingResponse 1000)⟩
      rlEnd :=
    RLStep.dispatch _ 1 rfl
  exact Relation.ReflTransGen.tail (Relation.ReflTransGen.tail
    (Relation.ReflTransGen.tail (Relation.ReflTransGen.tail
      (Relation.ReflTransGen.tail (Relation.ReflTransGen.single s1) s2) s3)
      s4) s5) s6 |>.tail s7

/-- The controlling facts about a sleeping worker, stable along every
step: asleep until `t`, or past its wake-up with the clock at `t` or
later, or dispatched at a time `≥ t`, or finished after dispatching at
a time `≥ t`. -/
def SleepInv (i t : Nat) (s : RLState) : Prop :=
  s.workers i = .sleepingUntil t ∨
  (s.workers i = .readyToDispatch ∧ t ≤ s.now) ∨
  (∃ d, s.workers i = .awaitingResponse d ∧ t ≤ d) ∨
  (∃ d e, s.workers i = .finished d e ∧ t ≤ d)

/-- The clock never moves backwards in one step. -/
theorem rlstep_now_mono {delay : Nat} {s s' : RLState}
    (h : RLStep delay s s') : s.now ≤ s'.now := by
  cases h <;> simp_all

/-- `SleepInv` is preserved by every step. -/
theorem sleepInv_step {delay : Nat} {s s' : RLState} {i t : Nat}
    (h : RLStep delay s s') (hinv : SleepInv i t s) : SleepInv i t s' := by
  have hnow := rlstep_now_mono h
  cases h with
  | tick t2 hle =>
    rcases hinv with h1 | ⟨h2, hl⟩ | ⟨d, h3, hl⟩ | ⟨d, e, h4, hl⟩
    · exact Or.inl h1
    · exact Or.inr (Or.inl ⟨h2, le_trans hl hle⟩)
    · exact Or.inr (Or.inr (Or.inl ⟨d, h3, hl⟩))
    · exact Or.inr (Or.inr (Or.inr ⟨d, e, h4, hl⟩))
  | runRL j hj =>
    by_cases hij : i = j
    · subst hij
      rcases hinv with h1 | ⟨h2, _⟩ | ⟨d, h3, _⟩ | ⟨d, e, h4, _⟩ <;>
        rw [hj] at * <;> simp_all
    · rcases hinv with h1 | ⟨h2, hl⟩ | ⟨d, h3, hl⟩ | ⟨d, e, h4, hl⟩
      · exact Or.inl (by dsimp only; rwa [setFn_ne _ _ _ _ hij])
      · exact Or.inr (Or.inl ⟨by dsimp only; rwa [setFn_ne _ _ _ _ hij], hl⟩)
      · exact Or.inr (Or.inr (Or.inl ⟨d,
          by dsimp only; rwa [setFn_ne _ _ _ _ hij], hl⟩))
      · exact Or.inr (Or.inr (Or.inr ⟨d, e,
          by dsimp only; rwa [setFn_ne _ _ _ _ hij], hl⟩))
  | wake j t2 hj hwt =>
    by_cases hij : i = j
    · subst hij
      rcases hinv with h1 | ⟨h2, _⟩ | ⟨d, h3, _⟩ | ⟨d, e, h4, _⟩
      · rw [hj] at h1
        cases h1
        refine Or.inr (Or.inl ⟨?_, hwt⟩)
        dsimp only
        rw [setFn_eq]
      · rw [hj] at h2
        cases h2
      · rw [hj] at h3
        cases h3
      · rw [hj] at h4
        cases h4
    · rcases hinv with h1 | ⟨h2, hl⟩ | ⟨d, h3, hl⟩ | ⟨d, e, h4, hl⟩
      · exact Or.inl (by dsimp only; rwa [setFn_ne _ _ _ _ hij])
      · exact Or.inr (Or.inl ⟨by dsimp only; rwa [setFn_ne _ _ _ _ hij], hl⟩)
      · exact Or.inr (Or.inr (Or.inl ⟨d,
          by dsimp only; rwa [setFn_ne _ _ _ _ hij], hl⟩))
      · exact Or.inr (Or.inr (Or.inr ⟨d, e,
          by dsimp only; rwa [setFn_ne _ _ _ _ hij], hl⟩))
  | dispatch j hj =>
    by_cases hij : i = j
    · subst hij
      rcases hinv with h1 | ⟨h2, hl⟩ | ⟨d, h3, _⟩ | ⟨d, e, h4, _⟩
      · rw [hj] at h1
        cases h1
      · refine Or.inr (Or.inr (Or.inl ⟨s.now, ?_, hl⟩))
        dsimp only
        rw [setFn_eq]
      · rw [hj] at h3
        cases h3
      · rw [hj] at h4
        cases h4
    · rcases hinv with h1 | ⟨h2, hl⟩ | ⟨d, h3, hl⟩ | ⟨d, e, h4, hl⟩
      · exact Or.inl (by dsimp only; rwa [setFn_ne _ _ _ _ hij])
      · exact Or.inr (Or.inl ⟨by dsimp only; rwa [setFn_ne _ _ _ _ hij], hl⟩)
      · exact Or.inr (Or.inr (Or.inl ⟨d,
          by dsimp only; rwa [setFn_ne _ _ _ _ hij], hl⟩))
      · exact Or.inr (Or.inr (Or.inr ⟨d, e,
          by dsimp only; rwa [setFn_ne _ _ _ _ hij], hl⟩))
  | complete j d hj =>
    by_cases hij : i = j
    · subst hij
      rcases hinv with h1 | ⟨h2, _⟩ | ⟨d2, h3, hl⟩ | ⟨d2, e, h4, _⟩
      · rw [hj] at h1
        cases h1
      · rw [hj] at h2
        cases h2
      · rw [hj] at h3
        cases h3
        refine Or.inr (Or.inr (Or.inr ⟨d, s.now, ?_, hl⟩))
        dsimp only
        rw [setFn_eq]
      · rw [hj] at h4
        cases h4
    · rcases hinv with h1 | ⟨h2, hl⟩ | ⟨d2, h3, hl⟩ | ⟨d2, e, h4, hl⟩
      · exact Or.inl (by dsimp only; rwa [setFn_ne _ _ _ _ hij])
      · exact Or.inr (Or.inl ⟨by dsimp only; rwa [setFn_ne _ _ _ _ hij], hl⟩)
      · exact Or.inr (Or.inr (Or.inl ⟨d2,
          by dsimp only; rwa [setFn_ne _ _ _ _ hij], hl⟩))
      · exact Or.inr (Or.inr (Or.inr ⟨d2, e,
          by dsimp only; rwa [setFn_ne _ _ _ _ hij], hl⟩))

/-- C9 (amended): the rate limiter paces each caller only against the
`lastRequest` value it observed, and that value is recorded at response
completion, not at dispatch.  Precisely: (a) a caller observing less
than the minimum interval since `lastRequest` is put to sleep until
exactly `lastRequest + delay`; (b) otherwise it proceeds at once;
(c) the clock is monotone; (d) a sleeping caller's eventual dispatch
happens no earlier than its wake-up time, so pacing holds per observed
`lastRequest`; (e) a completion records the completion-time clock into
`lastRequest`.  No mutual-exclusion guarantee across concurrent callers
holds (see the collision counterexample). -/
theorem rate_limiter_paced_per_observation (delay : Nat) :
    (∀ now last, last ≤ now → now - last < delay →
      applyRateLimit delay now last = .sleepingUntil (last + delay)) ∧
    (∀ now last, delay ≤ now - last →
      applyRateLimit delay now last = .readyToDispatch) ∧
    (∀ s s', RLStepStar delay s s' → s.now ≤ s'.now) ∧
    (∀ s s' i t d, RLStepStar delay s s' →
      s.workers i = .sleepingUntil t →
      s'.workers i = .awaitingResponse d → t ≤ d) ∧
    (∀ s s' i d e, RLStep delay s s' →
      s.workers i = .awaitingResponse d →
      s'.workers i = .finished d e → e = s.now ∧ s'.lastRequest = s.now) := by
  refine ⟨?_, ?_, ?_, ?_, ?_⟩
  · intro now last hle hlt
    unfold applyRateLimit
    rw [if_pos hlt]
    exact congrArg _ (by omega)
  · intro now last hge
    unfold applyRateLimit
    rw [if_neg (by omega)]
  · intro s s' hstar
    induction hstar with
    | refl => exact le_refl _
    | tail hst hstep ih => exact le_trans ih (rlstep_now_mono hstep)
  · intro s s' i t d hstar hsleep hdisp
    have hinv : SleepInv i t s' := by
      have h0 : SleepInv i t s := Or.inl hsleep
      clear hsleep hdisp
      induction hstar with
      | refl => exact h0
      | tail hst hstep ih => exact sleepInv_step hstep ih
    rcases hinv with h1 | ⟨h2, _⟩ | ⟨d2, h3, hl⟩ | ⟨d2, e, h4, _⟩
    · rw [hdisp] at h1
      cases h1
    · rw [hdisp] at h2
      cases h2
    · rw [hdisp] at h3
      cases h3
      exact hl
    · rw [hdisp] at h4
      cases h4
  · intro s s' i d e hstep haw hfin
    cases hstep with
    | tick t2 hle =>
      rw [haw] at hfin
      cases hfin
    | runRL j hj =>
      by_cases hij : i = j
      · subst hij
        rw [haw] at hj
        cases hj
      · dsimp only at hfin
        rw [setFn_ne _ _ _ _ hij, haw] at hfin
        cases hfin
    | wake j t2 hj hwt =>
      by_cases hij : i = j
      · subst hij
        rw [haw] at hj
        cases hj
      · dsimp only at hfin
        rw [setFn_ne _ _ _ _ hij, haw] at hfin
        cases hfin
    | dispatch j hj =>
      by_cases hij : i = j
      · subst hij
        rw [haw] at hj
        cases hj
      · dsimp only at hfin
        rw [setFn_ne _ _ _ _ hij, haw] at hfin
        cases hfin
    | complete j d2 hj =>
      by_cases hij : i = j
      · subst hij
        dsimp only at hfin
        rw [setFn_eq] at hfin
        cases hfin
        exact ⟨rfl, rfl⟩
      · dsimp only at hfin
        rw [setFn_ne _ _ _ _ hij, haw] at hfin
        cases hfin

/-- Witness for C9's amended theorem at `delay = 1000`, applied to a
single caller observing `lastRequest = 0` at time `600`: it sleeps
until exactly `1000`, and a caller that has already waited proceeds. -/
theorem rate_limiter_paced_witness :
    applyRateLimit 1000 600 0 = .sleepingUntil 1000 ∧
    applyRateLimit 1000 1700 500 = .readyToDispatch := by
  have h := rate_limiter_paced_per_observation 1000
  exact ⟨by
    have := h.1 600 0 (by norm_num) (by norm_num)
    simpa using this,
    h.2.1 1700 500 (by norm_num)⟩

/-! ## Theorems: fresh run initialization (claim C10) -/

/-- C10: every `processBatches` invocation begins a fresh run.  Before
any worker runs, the initialization segment leaves the queue equal to
the given batch list, the `processing`/`completed`/`failed` maps empty,
and the `paused`/`cancelled` flags false — whatever the prior state
held.  The initialized state is literally independent of the prior
state (results of a previous run are discarded; a `cancel()` or
`pause()` issued before the invocation has no effect), and a worker of
the new run can immediately dequeue the first batch: the dequeue step
is enabled despite any pre-invocation cancellation or pause. -/
theorem processBatches_fresh_run (tm : Bool) (s1 s2 : BPState)
    (b : PBatch) (rest : List PBatch) (c i : Nat) (hi : i < c) :
    (initRun s1 (b :: rest) c).queue = b :: rest ∧
    (initRun s1 (b :: rest) c).processing = [] ∧
    (initRun s1 (b :: rest) c).completed = [] ∧
    (initRun s1 (b :: rest) c).failed = [] ∧
    (initRun s1 (b :: rest) c).paused = false ∧
    (initRun s1 (b :: rest) c).cancelled = false ∧
    initRun s1 (b :: rest) c = initRun s2 (b :: rest) c ∧
    Step tm (initRun s1 (b :: rest) c)
      { initRun s1 (b :: rest) c with
        queue := rest
        processing := mapSet (initRun s1 (b :: rest) c).processing b.id b
        workers := setFn (initRun s1 (b :: rest) c).workers i
          (.inFlight b) } := by
  refine ⟨rfl, rfl, rfl, rfl, rfl, rfl, rfl, ?_⟩
  refine Step.dequeueAtTop _ i b rest ?_ rfl rfl rfl
  simp [initRun, hi]

/-- Witness for C10: a prior state that was cancelled, paused, and had
recorded results, followed by a fresh invocation on one batch with
concurrency 2: the new run starts clean and worker 0 can dequeue. -/
theorem processBatches_fresh_run_witness :
    (initRun
        (BPState.mk [] [] [("old", ⟨"old", 1, "t"⟩, "res")]
          [("bad", ⟨"bad", 2, "u"⟩, "err")] true true (fun _ => .done))
        [⟨"b1", 1, "x"⟩] 2).queue = [⟨"b1", 1, "x"⟩] ∧
    (initRun
        (BPState.mk [] [] [("old", ⟨"old", 1, "t"⟩, "res")]
          [("bad", ⟨"bad", 2, "u"⟩, "err")] true true (fun _ => .done))
        [⟨"b1", 1, "x"⟩] 2).processing = [] ∧
    (initRun
        (BPState.mk [] [] [("old", ⟨"old", 1, "t"⟩, "res")]
          [("bad", ⟨"bad", 2, "u"⟩, "err")] true true (fun _ => .done))
        [⟨"b1", 1, "x"⟩] 2).completed = [] ∧
    (initRun
        (BPState.mk [] [] [("old", ⟨"old", 1, "t"⟩, "res")]
          [("bad", ⟨"bad", 2, "u"⟩, "err")] true true (fun _ => .done))
        [⟨"b1", 1, "x"⟩] 2).failed = [] ∧
    (initRun
        (BPState.mk [] [] [("old", ⟨"old", 1, "t"⟩, "res")]
          [("bad", ⟨"bad", 2, "u"⟩, "err")] true true (fun _ => .done))
        [⟨"b1", 1, "x"⟩] 2).paused = false ∧
    (initRun
        (BPState.mk [] [] [("old", ⟨"old", 1, "t"⟩, "res")]
          [("bad", ⟨"bad", 2, "u"⟩, "err")] true true (fun _ => .done))
        [⟨"b1", 1, "x"⟩] 2).cancelled = false ∧
    initRun
        (BPState.mk [] [] [("old", ⟨"old", 1, "t"⟩, "res")]
          [("bad", ⟨"bad", 2, "u"⟩, "err")] true true (fun _ => .done))
        [⟨"b1", 1, "x"⟩] 2 =
      initRun (BPState.mk [] [] [] [] false false (fun _ => .atTop))
        [⟨"b1", 1, "x"⟩] 2 ∧
    Step true
      (initRun
        (BPState.mk [] [] [("old", ⟨"old", 1, "t"⟩, "res")]
          [("bad", ⟨"bad", 2, "u"⟩, "err")] true true (fun _ => .done))
        [⟨"b1", 1, "x"⟩] 2)
      { initRun
          (BPState.mk [] [] [("old", ⟨"old", 1, "t"⟩, "res")]
            [("bad", ⟨"bad", 2, "u"⟩, "err")] true true (fun _ => .done))
          [⟨"b1", 1, "x"⟩] 2 with
        queue := []
        processing := mapSet
          (initRun
            (BPState.mk [] [] [("old", ⟨"old", 1, "t"⟩, "res")]
              [("bad", ⟨"bad", 2, "u"⟩, "err")] true true (fun _ => .done))
            [⟨"b1", 1, "x"⟩] 2).processing "b1" ⟨"b1", 1, "x"⟩
        workers := setFn
          (initRun
            (BPState.mk [] [] [("old", ⟨"old", 1, "t"⟩, "res")]
              [("bad", ⟨"bad", 2, "u"⟩, "err")] true true (fun _ => .done))
            [⟨"b1", 1, "x"⟩] 2).workers 0 (.inFlight ⟨"b1", 1, "x"⟩) } :=
  processBatches_fresh_run true
    (BPState.mk [] [] [("old", ⟨"old", 1, "t"⟩, "res")]
      [("bad", ⟨"bad", 2, "u"⟩, "err")] true true (fun _ => .done))
    (BPState.mk [] [] [] [] false false (fun _ => .atTop))
    ⟨"b1", 1, "x"⟩ [] 2 0 (by norm_num)

end Spokable
